import Mathlib

/-!
# sbatch_job_monitor

A shallow embedding of `sbatch_job_monitor` (utilities.cc, main.cc, cargs.cc).

* `std::string` is a list of characters (`Str`).
* `unsigned` is a natural number kept below `2 ^ 32`.
* C++ exceptions are values of `Exn`; a function that may throw returns `Except Exn _`.
* A loop that need not terminate takes a fuel argument and returns `none` when the
  fuel is used up.
* The outside world (scheduler commands, marker files, the clock) is an abstract
  state `W` together with an `Env W` of operations on it; every call that main.cc
  makes on the outside world is appended to a trace.
-/

namespace sbatch_job_monitor

/-- A `std::string`, as its sequence of characters. -/
abbrev Str := List Char

/-- The exceptions thrown in the program; nothing in the program catches them. -/
inductive Exn where
  | domain_error (what : Str)
  | runtime_error (what : Str)
  | out_of_range (what : Str)
deriving DecidableEq, Repr

deriving instance DecidableEq for Except

/-- The value `UINT_MAX + 1` of a 32-bit `unsigned`. -/
def UINT_SIZE : Nat := 4294967296

/-! ## Standard library pieces used by utilities.cc -/

/-- Offset of the first occurrence of `sep` in `t`, if there is one. -/
def find_in (sep : Str) : Str → Option Nat
  | [] => if sep.isEmpty then some 0 else none
  | c :: t =>
    if sep.isPrefixOf (c :: t) then some 0
    else (find_in sep t).map (fun i => i + 1)

/-- The call `s.find(sep, pos)` of `std::string`: the lowest position `p >= pos` at which
`sep` occurs in `s`; `none` stands for `npos`. -/
def find (s sep : Str) (pos : Nat) : Option Nat :=
  if pos ≤ s.length then (find_in sep (s.drop pos)).map (fun i => pos + i) else none

/-- The call `s.substr(pos)` for `pos <= s.size()`. -/
def substr_from (s : Str) (pos : Nat) : Str := s.drop pos

/-- The call `s.substr(pos, n)` for `pos <= s.size()`. -/
def substr (s : Str) (pos n : Nat) : Str := (s.drop pos).take n

/-- The C locale `isspace`. -/
def isspace (c : Char) : Bool :=
  c = ' ' || c = '\t' || c = '\n' || c = '\x0b' || c = '\x0c' || c = '\r'

/-- The C locale `isdigit`. -/
def isdigit (c : Char) : Bool := '0' ≤ c && c ≤ '9'

/-- Value of a decimal digit character. -/
def digit_value (c : Char) : Nat := c.toNat - 48

/-- Value of a run of decimal digits, most significant first. -/
def decimal_value (ds : Str) : Nat := ds.foldl (fun acc c => 10 * acc + digit_value c) 0

/-- A `std::istringstream`: the characters not read yet, and whether `failbit` is set.
(`eofbit` is set exactly when a read has run into the end, after which `buf` is empty
and the next extraction fails in its sentry, so it needs no field of its own.) -/
structure istringstream where
  buf : Str
  fail : Bool
deriving DecidableEq, Repr

/-- The extraction `strm >> str` into a `std::string`: skip leading whitespace, then take
characters up to the next whitespace or the end. With `failbit` set, or with nothing but
whitespace left, the extraction fails. The string returned on failure is not looked at. -/
def extract_string (strm : istringstream) : istringstream × Str :=
  if strm.fail then (strm, [])
  else
    let rest := strm.buf.dropWhile isspace
    if rest.isEmpty then (⟨[], true⟩, [])
    else (⟨rest.dropWhile (fun c => !isspace c), false⟩, rest.takeWhile (fun c => !isspace c))

/-- The extraction `strm >> n` into an `unsigned` (base 10, C locale): skip leading
whitespace, take an optional sign and then all decimal digits. With no digit the extraction
fails and stores 0; with a value above `UINT_MAX` it fails and stores `UINT_MAX`; a
minus sign negates modulo `2 ^ 32`. -/
def extract_unsigned (strm : istringstream) : istringstream × Nat :=
  if strm.fail then (strm, 0)
  else
    let rest := strm.buf.dropWhile isspace
    if rest.isEmpty then (⟨[], true⟩, 0)
    else
      let negative := rest.head? = some '-'
      let body := if rest.head? = some '-' || rest.head? = some '+' then rest.tail else rest
      let digits := body.takeWhile isdigit
      let after := body.dropWhile isdigit
      if digits.isEmpty then (⟨after, true⟩, 0)
      else if decimal_value digits ≥ UINT_SIZE then (⟨after, true⟩, UINT_SIZE - 1)
      else if negative then (⟨after, false⟩, (UINT_SIZE - decimal_value digits) % UINT_SIZE)
      else (⟨after, false⟩, decimal_value digits)

/-! ## utilities.cc -/

/-- The loop of `splitline`: `cur` is the cursor, `vec` the tokens pushed so far. One unit of
fuel is one iteration; `none` means the fuel ran out before the loop reached its `break`. -/
def splitline_loop (s sep : Str) : Nat → Nat → List Str → Option (List Str)
  | 0, _, _ => none
  | fuel + 1, cur, vec =>
    match find s sep cur with
    | none => some (vec ++ [substr_from s cur])
    | some loc => splitline_loop s sep fuel (loc + sep.length) (vec ++ [substr s cur (loc - cur)])

/-- The function `splitline(s, vec, sep)`: the vector is cleared, then filled by the loop. The
result is the final content of `*vec`. The loop is run for `s.size() + 1` iterations at most,
which is all it ever takes when `sep` is not empty. -/
def splitline (s sep : Str) : Option (List Str) :=
  splitline_loop s sep (s.length + 1) 0 []

/-- A `std::map<unsigned, bool>`. -/
def JobMap := Nat → Option Bool

/-- The empty map, as left by `clear()`. -/
def JobMap.empty : JobMap := fun _ => none

/-- The assignment `m[k] = v`. -/
def JobMap.assign (m : JobMap) (k : Nat) (v : Bool) : JobMap :=
  fun j => if j = k then some v else m j

/-- The lookup `m.find(k)`: `none` is `end()`, `some v` an entry with `second == v`. -/
def JobMap.find (m : JobMap) (k : Nat) : Option Bool := m k

/-- The five extractions `strm1 >> catcher >> jobid >> catcher >> catcher >> jobstat` on one
line: `none` when the stream has failed at the end, else the job id and the status. -/
def parse_sjobs_line (line : Str) : Option (Nat × Str) :=
  let strm1 : istringstream := ⟨line, false⟩
  let r1 := extract_string strm1
  let r2 := extract_unsigned r1.1
  let r3 := extract_string r2.1
  let r4 := extract_string r3.1
  let r5 := extract_string r4.1
  if r5.1.fail then none else some (r2.2, r5.2)

/-- The second loop of `get_job_ids`, over the lines after the first. -/
def get_job_ids_loop : List Str → JobMap → Except Exn JobMap
  | [], target => .ok target
  | line :: rest, target =>
    if line.isEmpty then get_job_ids_loop rest target
    else
      match parse_sjobs_line line with
      | none =>
        .error (.domain_error ("cannot parse sjobs line \"".toList ++ line ++ "\"".toList))
      | some (jobid, jobstat) =>
        get_job_ids_loop rest (target.assign jobid (jobstat != "E".toList))

/-- The function `get_job_ids(sjobs, target)`; the result is the final content of `*target`,
which is cleared first. `none` only if `splitline` does not return. -/
def get_job_ids (sjobs : Str) : Option (Except Exn JobMap) :=
  match splitline sjobs "\n".toList with
  | none => none
  | some lines =>
    match lines with
    | [] =>
      some (.error (.domain_error
        ("inadequate total line count in sjobs data: \"".toList ++ sjobs ++ "\"".toList)))
    | _ :: data => some (get_job_ids_loop data JobMap.empty)

/-- The function `get_job_id(echo_output)`. -/
def get_job_id (echo_output : Str) : Except Exn Nat :=
  let r := extract_unsigned ⟨echo_output, false⟩
  if r.1.fail then
    .error (.domain_error
      ("cannot parse job id from echo output \"".toList ++ echo_output ++ "\"".toList))
  else .ok r.2

/-! ## The outside world -/

/-- One call of the program on the outside world. -/
inductive Event where
  | exec (cmd : Str)
  | system (cmd : Str)
  | sleep (seconds : Nat)
  | file_exists (path : Str)
  | remove (path : Str)
deriving DecidableEq, Repr

/-- The operations of the outside world, on a world state `W`.
* `popen cmd w`: running `cmd` through `popen`, reading its output to the end and closing it;
  `none` when `popen` itself fails, else the status returned by `pclose` and the output read.
* `system cmd w`: the status returned by `system(cmd)`.
* `file_exists path w`: the answer of `std::filesystem::exists(path)`.
* `remove path w`: the effect of `std::filesystem::remove(path)`.
* `sleep n w`: the world after `sleep(n)`.
* `uid w`: a draw of the random number generator. -/
structure Env (W : Type) where
  popen : Str → W → Option (Int × Str) × W
  system : Str → W → Int × W
  file_exists : Str → W → Bool
  remove : Str → W → W
  sleep : Nat → W → W
  uid : W → Nat × W

/-- The world together with the calls made on it so far, oldest first. -/
structure Sys (W : Type) where
  world : W
  trace : List Event
deriving DecidableEq

/-- The function `exec(cmd, screenoutput)`: the result is the value returned (or the exception
thrown), the final content of `*screenoutput`, and the world afterwards. -/
def exec {W : Type} (env : Env W) (cmd : Str) (y : Sys W) : Except Exn Int × Str × Sys W :=
  match env.popen cmd y.world with
  | (none, w) => (.error (.runtime_error "popen() failed".toList), [], ⟨w, y.trace ++ [.exec cmd]⟩)
  | (some (status, screenoutput), w) => (.ok status, screenoutput, ⟨w, y.trace ++ [.exec cmd]⟩)

/-- The call `std::to_string(jobid)`. -/
def to_string (n : Nat) : Str := (Nat.repr n).toList

/-- The function `kill_job(jobid)`. -/
def kill_job {W : Type} (env : Env W) (jobid : Nat) (y : Sys W) : Except Exn Unit × Sys W :=
  let command := "scancel ".toList ++ to_string jobid
  match env.system command y.world with
  | (status, w) =>
    if status ≠ 0 then
      (.error (.runtime_error ("kill command failed: \"".toList ++ command ++ "\"".toList)),
        ⟨w, y.trace ++ [.system command]⟩)
    else (.ok (), ⟨w, y.trace ++ [.system command]⟩)

/-- The call `sleep(n)`. -/
def do_sleep {W : Type} (env : Env W) (n : Nat) (y : Sys W) : Sys W :=
  ⟨env.sleep n y.world, y.trace ++ [.sleep n]⟩

/-- The call `std::filesystem::exists(path)`. -/
def fs_exists {W : Type} (env : Env W) (path : Str) (y : Sys W) : Bool × Sys W :=
  (env.file_exists path y.world, ⟨y.world, y.trace ++ [.file_exists path]⟩)

/-- The call `std::filesystem::remove(path)`. -/
def fs_remove {W : Type} (env : Env W) (path : Str) (y : Sys W) : Sys W :=
  ⟨env.remove path y.world, y.trace ++ [.remove path]⟩

/-! ## main.cc -/

/-- The values read from the command line through `cargs` (cargs.cc gives the options and
their defaults). -/
structure cargs where
  help : Bool
  output_prefix : Str
  job_name : Str
  resources : Str
  queue : Str
  command_script : Str
  sleep_time : Nat
  crashcheck_interval : Nat
  crashcheck_attempts : Nat
  eqw_resub_limit : Nat

/-- The locals of `main` that are set once before the monitoring loop. -/
structure Settings where
  logging_prefix : Str
  job_name : Str
  sbatch_command : Str
  sleep_in_seconds : Nat
  crashcheck_interval_in_seconds : Nat
  crashcheck_attempts : Nat
  eqw_resub_limit : Nat

/-- The locals of `main` that change in the monitoring loop, and the outside world. -/
structure Monitor (W : Type) where
  sys : Sys W
  job_id : Nat
  eqw_resubs : Nat
  seconds_elapsed_since_crashcheck : Nat
  sbatch_screen_output : Str

/-- How the process ends. -/
inductive Outcome where
  | exit (code : Nat)
  | uncaught (e : Exn)
  | hang
deriving DecidableEq, Repr

/-- How one pass through the body of the `for` loop of the crash check ends: at the end of
the body (`next`), at a `break` (`brk`), or by leaving `main` (`stop`). -/
inductive Flow (W : Type) where
  | next (m : Monitor W)
  | brk (m : Monitor W)
  | stop (o : Outcome) (m : Monitor W)

/-- The call `s.rfind("/")`: the position of the last `/`; `none` stands for `npos`. -/
def rfind_slash : Str → Option Nat
  | [] => none
  | c :: t =>
    match rfind_slash t with
    | some i => some (i + 1)
    | none => if c = '/' then some 0 else none

/-- The call `s.find_first_not_of("0123456789")`: the position of the first character that is
not a decimal digit; `none` stands for `npos`. -/
def find_first_not_of_digits : Str → Option Nat
  | [] => none
  | c :: t => if isdigit c then (find_first_not_of_digits t).map (fun i => i + 1) else some 0

/-- The call `s.substr(pos)` with `pos` as returned by a search: it throws `std::out_of_range`
when `pos > s.size()`, as `npos` always is. -/
def substr_at (s : Str) (pos : Option Nat) : Except Exn Str :=
  match pos with
  | none => .error (.out_of_range "basic_string::substr".toList)
  | some p =>
    if p ≤ s.length then .ok (s.drop p) else .error (.out_of_range "basic_string::substr".toList)

/-- Lines 38-48 of main.cc: the job name. -/
def derive_job_name (job_name logging_prefix : Str) : Except Exn Str :=
  let job_name1 :=
    if job_name.isEmpty then
      match rfind_slash logging_prefix with
      | some i => substr_from logging_prefix (i + 1)
      | none => logging_prefix
    else job_name
  match substr_at job_name1 (find_first_not_of_digits job_name1) with
  | .error e => .error e
  | .ok job_name2 => if job_name2.isEmpty then .ok "bash".toList else .ok job_name2

/-- Lines 54-57 of main.cc: the submission command. -/
def build_sbatch_command ( logging_prefix sbatch_queue resources command_script : Str) : Str :=
  "sbatch --output ".toList ++ logging_prefix ++ ".output -error ".toList ++ logging_prefix ++
    ".error --partition ".toList ++ sbatch_queue ++ " ".toList ++ resources ++
    " --no-requeue ".toList ++ command_script

/-- Lines 29-83 of main.cc: everything before the monitoring loop. `argc` is the number of
command line entries. The result is either the end of the process, or the locals with which
the monitoring loop is entered. Text written to `std::cout` is left out. -/
def startup {W : Type} (env : Env W) (ap : cargs) (argc : Nat) (w : W) :
    Except (Outcome × Sys W) (Settings × Monitor W) :=
  let y0 : Sys W := ⟨w, []⟩
  if ap.help || argc = 1 then .error (.exit 1, y0)
  else
    match derive_job_name ap.job_name ap.output_prefix with
    | .error e => .error (.uncaught e, y0)
    | .ok job_name =>
      let cfg : Settings :=
        { logging_prefix := ap.output_prefix
          job_name := job_name
          sbatch_command :=
            build_sbatch_command ap.output_prefix ap.queue ap.resources ap.command_script
          sleep_in_seconds := ap.sleep_time
          crashcheck_interval_in_seconds := ap.crashcheck_interval
          crashcheck_attempts := ap.crashcheck_attempts
          eqw_resub_limit := ap.eqw_resub_limit }
      let y1 :=
        match fs_exists env ( cfg.logging_prefix ++ ".success".toList) y0 with
        | (true, y) => fs_remove env ( cfg.logging_prefix ++ ".success".toList) y
        | (false, y) => y
      let y2 :=
        match fs_exists env ( cfg.logging_prefix ++ ".fail".toList) y1 with
        | (true, y) => fs_remove env ( cfg.logging_prefix ++ ".fail".toList) y
        | (false, y) => y
      match exec env cfg.sbatch_command y2 with
      | (.error e, _, y3) => .error (.uncaught e, y3)
      | (.ok status, sbatch_screen_output, y3) =>
        if status ≠ 0 then
          .error (.uncaught (.runtime_error
            ("unable to execute sbatch command: \"".toList ++ cfg.sbatch_command ++
              "\"".toList)), y3)
        else
          match get_job_id sbatch_screen_output with
          | .error e => .error (.uncaught e, y3)
          | .ok job_id =>
            let draw := env.uid y3.world
            let y4 : Sys W := ⟨draw.2, y3.trace⟩
            .ok (cfg,
              { sys := do_sleep env (1 + draw.1 % 30) y4
                job_id := job_id
                eqw_resubs := 0
                seconds_elapsed_since_crashcheck := 0
                sbatch_screen_output := sbatch_screen_output })

/-- The locals and the outside world at the end of a pass. -/
def Flow.monitor {W : Type} : Flow W → Monitor W
  | .next m => m
  | .brk m => m
  | .stop _ m => m

/-- Lines 86-93 of main.cc, the marker check at the head of the monitoring loop: `some code`
for `return code`, `none` for the final `else`. -/
def marker_check_poll {W : Type} (env : Env W) (cfg : Settings) (y : Sys W) :
    Option Nat × Sys W :=
  match fs_exists env ( cfg.logging_prefix ++ ".success".toList) y with
  | (true, y1) => (some 0, y1)
  | (false, y1) =>
    match fs_exists env ( cfg.logging_prefix ++ ".fail".toList) y1 with
    | (true, y2) => (some 2, y2)
    | (false, y2) => (none, y2)

/-- Lines 145-152 of main.cc, the marker check made as soon as the job is found missing from
the queue. -/
def marker_check_missing {W : Type} (env : Env W) (cfg : Settings) (y : Sys W) :
    Option Nat × Sys W :=
  match fs_exists env ( cfg.logging_prefix ++ ".success".toList) y with
  | (true, y1) => (some 0, y1)
  | (false, y1) =>
    match fs_exists env ( cfg.logging_prefix ++ ".fail".toList) y1 with
    | (true, y2) => (some 2, y2)
    | (false, y2) => (none, y2)

/-- Lines 165-183 of main.cc, the marker check made after the wait of 120 seconds. -/
def marker_check_waited {W : Type} (env : Env W) (cfg : Settings) (y : Sys W) :
    Option Nat × Sys W :=
  match fs_exists env ( cfg.logging_prefix ++ ".success".toList) y with
  | (true, y1) => (some 0, y1)
  | (false, y1) =>
    match fs_exists env ( cfg.logging_prefix ++ ".fail".toList) y1 with
    | (true, y2) => (some 2, y2)
    | (false, y2) => (none, y2)

/-- Lines 126-140 of main.cc, the resubmission of a job found in error state: the counter
of such resubmissions goes up by one and the submission command is run again; a non-zero
status throws, else the job id is read from the output, the elapsed counter is set to 0 and
the `for` loop is left by `break`. -/
def resubmit_eqw {W : Type} (env : Env W) (cfg : Settings) (m : Monitor W) : Flow W :=
  let eqw_resubs := (m.eqw_resubs + 1) % UINT_SIZE
  match exec env cfg.sbatch_command m.sys with
  | (.error e, out, y) =>
    .stop (.uncaught e) { m with sys := y, eqw_resubs := eqw_resubs, sbatch_screen_output := out }
  | (.ok status, out, y) =>
    if status ≠ 0 then
      .stop (.uncaught (.runtime_error
          ("unable to relaunch sbatch command: \"".toList ++ cfg.sbatch_command ++ "\"".toList)))
        { m with sys := y, eqw_resubs := eqw_resubs, sbatch_screen_output := out }
    else
      match get_job_id out with
      | .error e =>
        .stop (.uncaught e)
          { m with sys := y, eqw_resubs := eqw_resubs, sbatch_screen_output := out }
      | .ok id =>
        .brk { m with sys := y, eqw_resubs := eqw_resubs, sbatch_screen_output := out,
                      job_id := id, seconds_elapsed_since_crashcheck := 0 }

/-- Lines 184-197 of main.cc, the resubmission of a job that has left the queue without a
marker: the submission command is run again; a non-zero status throws, else the job id is
read from the output, the elapsed counter is set to 0 and the `for` loop is left by
`break`. -/
def resubmit_crashed {W : Type} (env : Env W) (cfg : Settings) (m : Monitor W) : Flow W :=
  match exec env cfg.sbatch_command m.sys with
  | (.error e, out, y) => .stop (.uncaught e) { m with sys := y, sbatch_screen_output := out }
  | (.ok status, out, y) =>
    if status ≠ 0 then
      .stop (.uncaught (.runtime_error
          ("unable to relaunch sbatch command: \"".toList ++ cfg.sbatch_command ++ "\"".toList)))
        { m with sys := y, sbatch_screen_output := out }
    else
      match get_job_id out with
      | .error e => .stop (.uncaught e) { m with sys := y, sbatch_screen_output := out }
      | .ok id =>
        .brk { m with sys := y, sbatch_screen_output := out, job_id := id,
                      seconds_elapsed_since_crashcheck := 0 }

/-- Lines 106-201 of main.cc: one pass through the body of the `for` loop of the crash
check. -/
def crashcheck_body {W : Type} (env : Env W) (cfg : Settings) (m : Monitor W) : Flow W :=
  match exec env "sjobs".toList m.sys with
  | (.error e, _, y) => .stop (.uncaught e) { m with sys := y }
  | (.ok status, sjobs_log, y) =>
    if status ≠ 0 then .next { m with sys := do_sleep env 60 y }
    else
      match get_job_ids sjobs_log with
      | none => .stop .hang { m with sys := y }
      | some (.error e) => .stop (.uncaught e) { m with sys := y }
      | some (.ok current_job_ids) =>
        match current_job_ids.find m.job_id with
        | some true => .brk { m with sys := y }
        | some false =>
          match kill_job env m.job_id y with
          | (.error e, y1) => .stop (.uncaught e) { m with sys := y1 }
          | (.ok _, y1) =>
            if m.eqw_resubs ≥ cfg.eqw_resub_limit then .next { m with sys := y1 }
            else
              resubmit_eqw env cfg { m with sys := y1 }
        | none =>
          match marker_check_missing env cfg y with
          | (some code, y1) => .stop (.exit code) { m with sys := y1 }
          | (none, y1) =>
            match marker_check_waited env cfg (do_sleep env 120 y1) with
            | (some code, y2) => .stop (.exit code) { m with sys := y2 }
            | (none, y2) =>
              resubmit_crashed env cfg { m with sys := y2 }

/-- The `for` loop of the crash check (lines 104-202), entered with `n_crashcheck_retries = n`
and `k = crashcheck_attempts - n` passes to go before its condition fails. The result is the
value of `n_crashcheck_retries` when the loop is left, unless `main` is left altogether. -/
def crashcheck_for {W : Type} (env : Env W) (cfg : Settings) :
    Nat → Nat → Monitor W → Except (Outcome × Monitor W) (Nat × Monitor W)
  | 0, n, m => .ok (n, m)
  | k + 1, n, m =>
    match crashcheck_body env cfg m with
    | .next m1 => crashcheck_for env cfg k (n + 1) m1
    | .brk m1 => .ok (n, m1)
    | .stop o m1 => .error (o, m1)

/-- Lines 100-207 of main.cc: the crash check. `.ok` is the return to the monitoring loop. -/
def crashcheck {W : Type} (env : Env W) (cfg : Settings) (m : Monitor W) :
    Except (Outcome × Monitor W) (Monitor W) :=
  match crashcheck_for env cfg cfg.crashcheck_attempts 0 m with
  | .error r => .error r
  | .ok (n_crashcheck_retries, m1) =>
    if n_crashcheck_retries ≥ cfg.crashcheck_attempts then
      .error (.uncaught (.runtime_error
        "in crashcheck, failed sjobs attempts exceeded acceptable threshold".toList), m1)
    else .ok m1

/-- Lines 86-208 of main.cc: one pass through the body of the monitoring loop. -/
def monitor_body {W : Type} (env : Env W) (cfg : Settings) (m : Monitor W) :
    Except (Outcome × Monitor W) (Monitor W) :=
  match marker_check_poll env cfg m.sys with
  | (some code, y) => .error (.exit code, { m with sys := y })
  | (none, y) =>
    let m1 : Monitor W :=
      { m with sys := do_sleep env cfg.sleep_in_seconds y,
               seconds_elapsed_since_crashcheck :=
                 (m.seconds_elapsed_since_crashcheck + cfg.sleep_in_seconds) % UINT_SIZE }
    if m1.seconds_elapsed_since_crashcheck ≥ cfg.crashcheck_interval_in_seconds then
      crashcheck env cfg m1
    else .ok m1

/-- The monitoring loop `while (true)`, run for at most `fuel` passes: `none` when the loop
is still running after that many. -/
def monitor_loop {W : Type} (env : Env W) (cfg : Settings) :
    Nat → Monitor W → Option (Outcome × Monitor W)
  | 0, _ => none
  | fuel + 1, m =>
    match monitor_body env cfg m with
    | .error r => some r
    | .ok m1 => monitor_loop env cfg fuel m1

/-- The first `k` passes through the body of the monitoring loop: `.ok` is the state with
which pass `k + 1` starts. -/
def monitor_passes {W : Type} (env : Env W) (cfg : Settings) :
    Nat → Monitor W → Except (Outcome × Monitor W) (Monitor W)
  | 0, m => .ok m
  | k + 1, m =>
    match monitor_body env cfg m with
    | .error r => .error r
    | .ok m1 => monitor_passes env cfg k m1

/-- The function `main`, with the monitoring loop run for at most `fuel` passes. -/
def main {W : Type} (env : Env W) (ap : cargs) (argc : Nat) (fuel : Nat) (w : W) :
    Option (Outcome × Sys W) :=
  match startup env ap argc w with
  | .error r => some r
  | .ok (cfg, m) => (monitor_loop env cfg fuel m).map (fun r => (r.1, r.2.sys))

/-! ## Worlds for the concrete runs -/

/-- A world given by the answers still to come for the successive `popen` calls (whatever the
command); `popen` fails once the script is used up. `system` always returns 0, no marker
file ever exists, and time passing changes nothing. -/
def scripted : Env (List (Int × Str)) where
  popen := fun _ w =>
    match w with
    | [] => (none, [])
    | r :: rest => (some r, rest)
  system := fun _ w => (0, w)
  file_exists := fun _ _ => false
  remove := fun _ w => w
  sleep := fun _ w => w
  uid := fun w => (0, w)

/-- Settings with the default cadence of cargs.cc (sleep 10, crash check every 3600 seconds, 10
listing attempts, 3 resubmissions for error states), output prefix `out/job` and submission
command `sbatch job.sh`. -/
def demo_settings : Settings where
  logging_prefix := "out/job".toList
  job_name := "job".toList
  sbatch_command := "sbatch job.sh".toList
  sleep_in_seconds := 10
  crashcheck_interval_in_seconds := 3600
  crashcheck_attempts := 10
  eqw_resub_limit := 3

/-- A monitor watching job 42 in the scripted world `w`, with an empty trace. -/
def demo_monitor (w : List (Int × Str)) (eqw_resubs elapsed : Nat) :
    Monitor (List (Int × Str)) where
  sys := ⟨w, []⟩
  job_id := 42
  eqw_resubs := eqw_resubs
  seconds_elapsed_since_crashcheck := elapsed
  sbatch_screen_output := "42\n".toList

/-- What a theorem about a concrete run looks at: the trace, the job id, the counter of
resubmissions for error states and the elapsed counter. -/
def Monitor.view {W : Type} (m : Monitor W) : List Event × Nat × Nat × Nat :=
  (m.sys.trace, m.job_id, m.eqw_resubs, m.seconds_elapsed_since_crashcheck)

/-- Whether the queue listing fails (runs, with a non-zero status) `k` times in a row from the
world `w` on, the program sleeping 60 seconds after each failure. -/
def sjobs_fails {W : Type} (env : Env W) : Nat → W → Bool
  | 0, _ => true
  | k + 1, w =>
    match env.popen "sjobs".toList w with
    | (some (status, _), w1) => status != 0 && sjobs_fails env k (env.sleep 60 w1)
    | (none, _) => false

/-- The calls made by `k` failed listings in a row: each is the listing command followed by
a sleep of 60 seconds. -/
def failed_listings : Nat → List Event
  | 0 => []
  | k + 1 => [.exec "sjobs".toList, .sleep 60] ++ failed_listings k

/-- What a theorem about a concrete run that ends looks at: how the process ends, and the
view of the monitor at that point. -/
def ending {W : Type} (r : Except (Outcome × Monitor W) (Monitor W)) :
    Option (Outcome × List Event × Nat × Nat × Nat) :=
  match r with
  | .error (o, m) => some (o, m.view)
  | .ok _ => none

/-- Whether `s`, after its leading whitespace and at most one sign, goes on with a decimal
digit. -/
def begins_with_number (s : Str) : Bool :=
  match s.dropWhile isspace with
  | [] => false
  | c :: t =>
    if c = '+' || c = '-' then
      match t with
      | [] => false
      | d :: _ => isdigit d
    else isdigit c

/-! ## Well-formed queue listings -/

/-- The text whose lines are `l` and then those of `ls`: consecutive lines are joined by a
newline. -/
def join_lines : Str → List Str → Str
  | l, [] => l
  | l, l1 :: ls => l ++ '\n' :: join_lines l1 ls

/-- Whitespace that stays within a line, possibly none. -/
def is_blank (g : Str) : Bool := g.all (fun c => isspace c && c != '\n')

/-- Whitespace that separates two fields of a line. -/
def is_gap (g : Str) : Bool := !g.isEmpty && is_blank g

/-- A field of a line: at least one character, none of them whitespace. -/
def is_field (f : Str) : Bool := !f.isEmpty && f.all (fun c => !isspace c)

/-- A field that is a job number: decimal digits that denote a value of at most `UINT_MAX`. -/
def is_job_number (d : Str) : Bool := !d.isEmpty && d.all isdigit && decimal_value d < UINT_SIZE

/-- A data line made of five whitespace-separated fields, of which the second is `jobid` and
the fifth is `jobstat`, with the whitespace around them. -/
structure DataLine where
  lead : Str
  f1 : Str
  gap1 : Str
  jobid : Str
  gap2 : Str
  f3 : Str
  gap3 : Str
  f4 : Str
  gap4 : Str
  jobstat : Str
  trail : Str

/-- The characters of a data line. -/
def DataLine.text (r : DataLine) : Str :=
  r.lead ++ (r.f1 ++ (r.gap1 ++ (r.jobid ++ (r.gap2 ++ (r.f3 ++ (r.gap3 ++ (r.f4 ++ (r.gap4 ++
    (r.jobstat ++ r.trail)))))))))

/-- A data line is well formed when its five fields are fields, the second a job number,
and what is between and around them is whitespace. -/
def DataLine.wf (r : DataLine) : Bool :=
  is_blank r.lead && is_field r.f1 && is_gap r.gap1 && is_job_number r.jobid && is_gap r.gap2 &&
    is_field r.f3 && is_gap r.gap3 && is_field r.f4 && is_gap r.gap4 && is_field r.jobstat &&
    is_blank r.trail

/-- The job id written in the second field. -/
def DataLine.id (r : DataLine) : Nat := decimal_value r.jobid

/-- The text of a line after the first: `none` is an empty line. -/
def line_text : Option DataLine → Str
  | none => []
  | some r => r.text

/-- The map obtained from `target` by going through the data lines in order and assigning to
each job id whether the status on that line differs from `E`. -/
def snapshot : List (Option DataLine) → JobMap → JobMap
  | [], target => target
  | none :: rows, target => snapshot rows target
  | some r :: rows, target => snapshot rows (target.assign r.id (r.jobstat != "E".toList))

/-- A listing is well formed when its first line has no newline in it and each further
line is empty or a well-formed data line. -/
def listing_wf (header : Str) (rows : List (Option DataLine)) : Bool :=
  !header.contains '\n' && rows.all (fun o => o.all DataLine.wf)

/-- The data line with the given five fields, one space between them and nothing around. -/
def plain_line (f1 jobid f3 f4 jobstat : Str) : DataLine where
  lead := []
  f1 := f1
  gap1 := " ".toList
  jobid := jobid
  gap2 := " ".toList
  f3 := f3
  gap3 := " ".toList
  f4 := f4
  gap4 := " ".toList
  jobstat := jobstat
  trail := []

/-- The classification of the two marker bits: exit code 0 when the success marker exists,
else exit code 2 when the fail marker exists, else nothing. -/
def classify_markers (success fail : Bool) : Option Nat :=
  if success then some 0 else if fail then some 2 else none

/-- A command line with output prefix `out/job`, job name `alignment`, script `run.sh` and
the defaults of cargs.cc for everything else. -/
def demo_cargs : cargs where
  help := false
  output_prefix := "out/job".toList
  job_name := "alignment".toList
  resources := "--time=2:00:00 --mem=17g".toList
  queue := "norm".toList
  command_script := "run.sh".toList
  sleep_time := 10
  crashcheck_interval := 3600
  crashcheck_attempts := 10
  eqw_resub_limit := 3

/-- What a theorem about a concrete run of `startup` looks at: the job name, the submission
command, and the view of the monitor with which the monitoring loop is entered. -/
def started {W : Type} (r : Except (Outcome × Sys W) (Settings × Monitor W)) :
    Option (Str × Str × List Event × Nat × Nat × Nat) :=
  match r with
  | .error _ => none
  | .ok (cfg, m) => some (cfg.job_name, cfg.sbatch_command, m.view)

/-- The scripted world in which `system` always returns status 1. -/
def scripted_kill_fails : Env (List (Int × Str)) :=
  { scripted with system := fun _ w => (1, w) }

/-- The call `vec->clear()`: whatever the vector held, it is empty afterwards. -/
def clear_vec (_vec : List Str) : List Str := []

/-- The call `splitline(s, &v, sep)` on a vector `v` that holds `vec`: the result is what the
vector holds when the call returns. -/
def splitline_call (s : Str) (vec : List Str) (sep : Str) : Option (List Str) :=
  splitline_loop s sep (s.length + 1) 0 (clear_vec vec)

/-- The call `target->clear()`: whatever the map held, it is empty afterwards. -/
def JobMap.clear (_target : JobMap) : JobMap := JobMap.empty

/-- The call `get_job_ids(sjobs, &t)` on a map `t` that holds `target`: the result is what the
map holds when the call returns. -/
def get_job_ids_call (sjobs : Str) (target : JobMap) : Option (Except Exn JobMap) :=
  match splitline_call sjobs [] "\n".toList with
  | none => none
  | some lines =>
    match lines with
    | [] =>
      some (.error (.domain_error
        ("inadequate total line count in sjobs data: \"".toList ++ sjobs ++ "\"".toList)))
    | _ :: data => some (get_job_ids_loop data target.clear)

/-- The tokens joined again, with `sep` between consecutive ones. -/
def join_with (sep : Str) : List Str → Str
  | [] => []
  | [a] => a
  | a :: b :: rest => a ++ sep ++ join_with sep (b :: rest)

/-- The number `max(1, ceil(I / s))`, for a sleep time `s` and a crash check interval `I`. -/
def first_crashcheck_pass (s I : Nat) : Nat := max 1 ((I + s - 1) / s)

/-- The calls made by `k` passes of the monitoring loop in which no marker is found and no
crash check is run: each pass is the two marker checks and the sleep. -/
def poll_events (cfg : Settings) : Nat → List Event
  | 0 => []
  | k + 1 =>
    poll_events cfg k ++ [.file_exists ( cfg.logging_prefix ++ ".success".toList),
      .file_exists ( cfg.logging_prefix ++ ".fail".toList), .sleep cfg.sleep_in_seconds]

/-- The world after `k` sleeps of the monitoring loop. -/
def poll_world {W : Type} (env : Env W) (cfg : Settings) : Nat → W → W
  | 0, w => w
  | k + 1, w => env.sleep cfg.sleep_in_seconds (poll_world env cfg k w)

/-- The monitor after `k` passes of the monitoring loop in which no marker is found and no
crash check is run, started from `m` with the elapsed counter at 0: the counter is at `k`
times the sleep time. -/
def polled {W : Type} (env : Env W) (cfg : Settings) (k : Nat) (m : Monitor W) : Monitor W :=
  { m with sys := ⟨poll_world env cfg k m.sys.world, m.sys.trace ++ poll_events cfg k⟩,
           seconds_elapsed_since_crashcheck := k * cfg.sleep_in_seconds }

/-- The demo settings with a crash check interval of 25 seconds. -/
def quick_settings : Settings :=
  { demo_settings with crashcheck_interval_in_seconds := 25 }

/-- The monitor with which a run of the monitoring loop or of the crash check ends, whether
it goes on or leaves `main`. -/
def final_monitor {W : Type} (r : Except (Outcome × Monitor W) (Monitor W)) : Monitor W :=
  match r with
  | .error (_, m) => m
  | .ok m => m

/-- The states of the monitor that a run started in `m0` can be in at the head of the
monitoring loop, after a marker check there, at the start of a crash check and after each
pass of its `for` loop. -/
inductive Reachable {W : Type} (env : Env W) (cfg : Settings) (m0 : Monitor W) :
    Monitor W → Prop where
  | start : Reachable env cfg m0 m0
  | checked (m : Monitor W) : Reachable env cfg m0 m →
      Reachable env cfg m0 { m with sys := (marker_check_poll env cfg m.sys).2 }
  | slept (m : Monitor W) : Reachable env cfg m0 m →
      Reachable env cfg m0
        { m with sys := do_sleep env cfg.sleep_in_seconds (marker_check_poll env cfg m.sys).2,
                 seconds_elapsed_since_crashcheck :=
                   (m.seconds_elapsed_since_crashcheck + cfg.sleep_in_seconds) % UINT_SIZE }
  | pass (m : Monitor W) : Reachable env cfg m0 m →
      Reachable env cfg m0 (crashcheck_body env cfg m).monitor

/-- Lines 64-69 of main.cc: a success marker that exists is removed, then a fail marker that
exists is removed. -/
def purge_markers {W : Type} (env : Env W) ( logging_prefix : Str) (y0 : Sys W) : Sys W :=
  let y1 :=
    match fs_exists env ( logging_prefix ++ ".success".toList) y0 with
    | (true, y) => fs_remove env ( logging_prefix ++ ".success".toList) y
    | (false, y) => y
  match fs_exists env ( logging_prefix ++ ".fail".toList) y1 with
  | (true, y) => fs_remove env ( logging_prefix ++ ".fail".toList) y
  | (false, y) => y

/-- Lines 34-57 of main.cc: the locals set from the command line, for a derived job name. -/
def startup_settings (ap : cargs) (job_name : Str) : Settings where
  logging_prefix := ap.output_prefix
  job_name := job_name
  sbatch_command :=
    build_sbatch_command ap.output_prefix ap.queue ap.resources ap.command_script
  sleep_in_seconds := ap.sleep_time
  crashcheck_interval_in_seconds := ap.crashcheck_interval
  crashcheck_attempts := ap.crashcheck_attempts
  eqw_resub_limit := ap.eqw_resub_limit

/-- Whether a call is a `std::filesystem::remove`. -/
def Event.is_remove : Event → Bool
  | .remove _ => true
  | _ => false

/-- The removals in a trace. -/
def removals (tr : List Event) : List Event := tr.filter Event.is_remove

/-- A world made of the files that exist and of the answers still to come for the `popen`
calls: `remove` deletes the file, `system` returns 0, and time passing changes nothing. -/
def files_env : Env (List Str × List (Int × Str)) where
  popen := fun _ w =>
    match w.2 with
    | [] => (none, w)
    | r :: rest => (some r, (w.1, rest))
  system := fun _ w => (0, w)
  file_exists := fun path w => w.1.contains path
  remove := fun path w => (w.1.filter (fun f => f != path), w.2)
  sleep := fun _ w => w
  uid := fun w => (0, w)

/-- The shapes of a data line that this development shows to be rejected: a line of
whitespace only; a line whose text after the first field does not begin, after whitespace
and at most one sign, with a decimal digit (so a line of one field, or one whose second
field is not a number); a line whose second field starts with a run of digits that denotes
more than `UINT_MAX`; and a line of two, three or four fields with a job number as the
second. -/
inductive Malformed : Str → Prop where
  | blank (g : Str) : g ≠ [] → (∀ c ∈ g, isspace c = true) → Malformed g
  | no_number (lead f1 rest : Str) : is_blank lead = true → is_field f1 = true →
      (∀ c, rest.head? = some c → isspace c = true) → begins_with_number rest = false →
      Malformed (lead ++ (f1 ++ rest))
  | large_number (lead f1 gap1 d rest : Str) : is_blank lead = true → is_field f1 = true →
      is_gap gap1 = true → d ≠ [] → (∀ c ∈ d, isdigit c = true) → UINT_SIZE ≤ decimal_value d →
      (∀ c, rest.head? = some c → isdigit c = false) →
      Malformed (lead ++ (f1 ++ (gap1 ++ (d ++ rest))))
  | two_fields (r : DataLine) : r.wf = true →
      Malformed (r.lead ++ (r.f1 ++ (r.gap1 ++ (r.jobid ++ r.trail))))
  | three_fields (r : DataLine) : r.wf = true →
      Malformed (r.lead ++ (r.f1 ++ (r.gap1 ++ (r.jobid ++ (r.gap2 ++ (r.f3 ++ r.trail))))))
  | four_fields (r : DataLine) : r.wf = true →
      Malformed (r.lead ++ (r.f1 ++ (r.gap1 ++ (r.jobid ++ (r.gap2 ++ (r.f3 ++ (r.gap3 ++
        (r.f4 ++ r.trail))))))))

/-- A monitor watching job 42 in the world of `files_env` with the given files and script,
with an empty trace. -/
def files_monitor (files : List Str) (script : List (Int × Str)) :
    Monitor (List Str × List (Int × Str)) where
  sys := ⟨(files, script), []⟩
  job_id := 42
  eqw_resubs := 0
  seconds_elapsed_since_crashcheck := 3600
  sbatch_screen_output := "42\n".toList

/-! ## The crash check -/

theorem exec_ok {W : Type} (env : Env W) (cmd : Str) (y : Sys W) (status : Int) (out : Str)
    (w : W) (h : env.popen cmd y.world = (some (status, out), w)) :
    exec env cmd y = (.ok status, out, ⟨w, y.trace ++ [.exec cmd]⟩) := by
  simp only [exec, h]

theorem kill_job_ok {W : Type} (env : Env W) (jobid : Nat) (y : Sys W) (w : W)
    (h : env.system ("scancel ".toList ++ to_string jobid) y.world = (0, w)) :
    kill_job env jobid y
      = (.ok (), ⟨w, y.trace ++ [.system ("scancel ".toList ++ to_string jobid)]⟩) := by
  simp only [kill_job, h]
  rfl

/-- A pass that ends in `break` leaves the `for` loop with the attempt counter as it was. -/
theorem crashcheck_for_of_brk {W : Type} (env : Env W) (cfg : Settings) (m m1 : Monitor W)
    (h : crashcheck_body env cfg m = .brk m1) :
    ∀ k n, crashcheck_for env cfg (k + 1) n m = .ok (n, m1) := by
  intro k n
  simp only [crashcheck_for, h]

/-- A first pass that ends in `break` makes the crash check return to the monitoring loop. -/
theorem crashcheck_of_brk {W : Type} (env : Env W) (cfg : Settings) (m m1 : Monitor W)
    (h : crashcheck_body env cfg m = .brk m1) :
    0 < cfg.crashcheck_attempts → crashcheck env cfg m = .ok m1 := by
  intro hpos
  obtain ⟨k, hk⟩ := Nat.exists_eq_succ_of_ne_zero (Nat.pos_iff_ne_zero.mp hpos)
  simp only [crashcheck, hk, crashcheck_for_of_brk env cfg m m1 h]
  simp

/-- A pass of the crash check that finds the job in the listing with a healthy flag leaves
the `for` loop by `break` and changes nothing but the world and the trace. -/
theorem crashcheck_body_healthy {W : Type} (env : Env W) (cfg : Settings) (m : Monitor W)
    (log : Str) (w1 : W) (ids : JobMap)
    (hlist : env.popen "sjobs".toList m.sys.world = (some (0, log), w1))
    (hparse : get_job_ids log = some (.ok ids))
    (hfind : ids.find m.job_id = some true) :
    crashcheck_body env cfg m
      = .brk { m with sys := ⟨w1, m.sys.trace ++ [.exec "sjobs".toList]⟩ } := by
  simp only [crashcheck_body, exec_ok env _ _ _ _ _ hlist, hparse, hfind]
  rfl

/-- C1, on the code: with sleep 10 and interval 3600, a pass of the monitoring loop that
starts at elapsed 3590 runs a crash check, which finds job 42 listed and healthy, and goes back
to polling with the elapsed counter at 3600, not 0; the very next pass, ten seconds later, runs
a crash check again and leaves the counter at 3610. -/
theorem C1_healthy_check_keeps_elapsed :
    (monitor_passes scripted demo_settings 1
        (demo_monitor [(0, "h\nu 42 n p R\n".toList), (0, "h\nu 42 n p R\n".toList)] 0 3590)
      ).toOption.map Monitor.view
      = some ([.file_exists "out/job.success".toList, .file_exists "out/job.fail".toList,
          .sleep 10, .exec "sjobs".toList], 42, 0, 3600)
    ∧ (monitor_passes scripted demo_settings 2
        (demo_monitor [(0, "h\nu 42 n p R\n".toList), (0, "h\nu 42 n p R\n".toList)] 0 3590)
      ).toOption.map Monitor.view
      = some ([.file_exists "out/job.success".toList, .file_exists "out/job.fail".toList,
          .sleep 10, .exec "sjobs".toList,
          .file_exists "out/job.success".toList, .file_exists "out/job.fail".toList,
          .sleep 10, .exec "sjobs".toList], 42, 0, 3610) := by
  constructor <;> decide

/-- C2, on the code: with the budget of 3 resubmissions used up and 10 listing attempts, the
crash check finds job 42 listed in error state and kills it, then lists the queue again; the
job is gone, no marker exists, and after the wait the job is submitted again: the crash check
returns to polling with the new job id 43. -/
theorem C2_limit_reached_still_resubmits :
    (crashcheck scripted demo_settings
        (demo_monitor [(0, "h\nu 42 n p E\n".toList), (0, "h\n".toList), (0, "43\n".toList)]
          3 3600)).toOption.map Monitor.view
      = some ([.exec "sjobs".toList, .system "scancel 42".toList, .exec "sjobs".toList,
          .file_exists "out/job.success".toList, .file_exists "out/job.fail".toList,
          .sleep 120,
          .file_exists "out/job.success".toList, .file_exists "out/job.fail".toList,
          .exec "sbatch job.sh".toList], 43, 3, 0) := by
  decide

/-- C3, counterexample: with 10 listing attempts allowed, a listing that exits with status 0
but has the malformed data line `garbage` ends the process with the uncaught parse error
after that single listing; the second listing of the script, which is well formed and shows
the job healthy, is never asked for. -/
theorem C3_parse_error_not_retried :
    demo_settings.crashcheck_attempts = 10
    ∧ ending (crashcheck scripted demo_settings
        (demo_monitor [(0, "h\ngarbage\n".toList), (0, "h\nu 42 n p R\n".toList)] 0 3600))
      = some (.uncaught (.domain_error "cannot parse sjobs line \"garbage\"".toList),
          [.exec "sjobs".toList], 42, 0, 3600) := by
  constructor <;> decide

/-- C3, amended: when the listing command exits with status 0 and `get_job_ids` throws on its
output, the pass of the crash check in which this happens ends the process with that
exception, for every number `k` of attempts still allowed after it and every number `n` of
attempts made before; the listing has been run once in that pass, nothing is killed or
submitted, and no local of the monitor has changed. In particular the crash check as a whole
ends so when this happens at its first listing. -/
theorem C3_parse_error_is_fatal {W : Type} (env : Env W) (cfg : Settings) (m : Monitor W)
    (log : Str) (w1 : W) (e : Exn)
    (hlist : env.popen "sjobs".toList m.sys.world = (some (0, log), w1))
    (hparse : get_job_ids log = some (.error e)) :
    (∀ k n, crashcheck_for env cfg (k + 1) n m
      = .error (.uncaught e, { m with sys := ⟨w1, m.sys.trace ++ [.exec "sjobs".toList]⟩ }))
    ∧ (0 < cfg.crashcheck_attempts → crashcheck env cfg m
      = .error (.uncaught e, { m with sys := ⟨w1, m.sys.trace ++ [.exec "sjobs".toList]⟩ })) := by
  have hbody : crashcheck_body env cfg m
      = .stop (.uncaught e) { m with sys := ⟨w1, m.sys.trace ++ [.exec "sjobs".toList]⟩ } := by
    simp only [crashcheck_body, exec_ok env _ _ _ _ _ hlist, hparse]
    rfl
  have hfor : ∀ k n, crashcheck_for env cfg (k + 1) n m
      = .error (.uncaught e, { m with sys := ⟨w1, m.sys.trace ++ [.exec "sjobs".toList]⟩ }) := by
    intro k n
    simp only [crashcheck_for, hbody]
  refine ⟨hfor, fun hpos => ?_⟩
  obtain ⟨k, hk⟩ := Nat.exists_eq_succ_of_ne_zero (Nat.pos_iff_ne_zero.mp hpos)
  simp only [crashcheck, hk, hfor]

/-- A crash check whose first listing has the malformed data line `garbage`. -/
theorem C3_parse_error_is_fatal_witness :
    crashcheck scripted demo_settings
        (demo_monitor [(0, "h\ngarbage\n".toList)] 0 3600)
      = .error (.uncaught (.domain_error "cannot parse sjobs line \"garbage\"".toList),
          { demo_monitor [(0, "h\ngarbage\n".toList)] 0 3600 with
            sys := ⟨[], [] ++ [.exec "sjobs".toList]⟩ }) :=
  (C3_parse_error_is_fatal scripted demo_settings
    (demo_monitor [(0, "h\ngarbage\n".toList)] 0 3600) "h\ngarbage\n".toList []
    (.domain_error "cannot parse sjobs line \"garbage\"".toList) (by rfl) (by rfl)).2
    (by decide)

/-- After `k` failed listings in a row the `for` loop of the crash check has made `k` passes,
each a listing and a sleep of 60 seconds, and nothing else. -/
theorem crashcheck_for_fails {W : Type} (env : Env W) (cfg : Settings) :
    ∀ (k n : Nat) (m : Monitor W), sjobs_fails env k m.sys.world = true →
      ∃ w, crashcheck_for env cfg k n m
        = .ok (n + k, { m with sys := ⟨w, m.sys.trace ++ failed_listings k⟩ }) := by
  intro k
  induction k with
  | zero =>
    intro n m _
    exact ⟨m.sys.world, by simp [crashcheck_for, failed_listings]⟩
  | succ k ih =>
    intro n m h
    simp only [sjobs_fails] at h
    rcases hp : env.popen "sjobs".toList m.sys.world with ⟨r, w1⟩
    rw [hp] at h
    cases r with
    | none => simp at h
    | some so =>
      obtain ⟨status, out⟩ := so
      simp only [Bool.and_eq_true, bne_iff_ne, ne_eq] at h
      obtain ⟨w, hw⟩ := ih (n + 1)
        { m with sys := do_sleep env 60 ⟨w1, m.sys.trace ++ [.exec "sjobs".toList]⟩ } h.2
      refine ⟨w, ?_⟩
      simp only [crashcheck_for, crashcheck_body, exec_ok env _ _ _ _ _ hp, h.1, if_true,
        ne_eq, not_false_eq_true]
      rw [hw]
      simp [do_sleep, failed_listings, Nat.add_assoc, Nat.add_comm 1 k]

/-- C4: if the listing command fails (runs and returns a non-zero status) `crashcheck_attempts`
times in a row from the start of a crash check, the crash check ends the process with the
runtime error of line 204; the calls made in it are exactly `crashcheck_attempts` listings,
each followed by a sleep of 60 seconds, so nothing is killed, nothing is submitted, and no
local of the monitor has changed. -/
theorem C4_listing_failures_exhaust_attempts {W : Type} (env : Env W) (cfg : Settings)
    (m : Monitor W) (hfail : sjobs_fails env cfg.crashcheck_attempts m.sys.world = true) :
    ∃ w, crashcheck env cfg m
      = .error (.uncaught (.runtime_error
          "in crashcheck, failed sjobs attempts exceeded acceptable threshold".toList),
          { m with sys := ⟨w, m.sys.trace ++ failed_listings cfg.crashcheck_attempts⟩ }) := by
  obtain ⟨w, hw⟩ := crashcheck_for_fails env cfg cfg.crashcheck_attempts 0 m hfail
  refine ⟨w, ?_⟩
  simp only [crashcheck, hw]
  simp

/-- Scenario E: the listing command returns status 1 ten times in a row, with 10 attempts
allowed. -/
theorem C4_listing_failures_exhaust_attempts_witness :
    ∃ w, crashcheck scripted demo_settings (demo_monitor (List.replicate 10 (1, [])) 0 3600)
      = .error (.uncaught (.runtime_error
          "in crashcheck, failed sjobs attempts exceeded acceptable threshold".toList),
          { demo_monitor (List.replicate 10 (1, [])) 0 3600 with
            sys := ⟨w, [] ++ failed_listings 10⟩ }) :=
  C4_listing_failures_exhaust_attempts scripted demo_settings
    (demo_monitor (List.replicate 10 (1, [])) 0 3600) (by decide)

/-- C5: let the counter of resubmissions for error states be below the limit (an `unsigned`),
and let a pass of the crash check find the current job id in the listing with the error flag,
the kill command return 0 and the submission command return 0 with an output from which
`get_job_id` reads `id`. Then the pass leaves the `for` loop by `break`, whatever the number
of attempts made and left; the calls made are the listing, one `scancel` of the old id and
then one run of the unchanged submission command; the counter has gone up by one, the job
id is `id`, the elapsed counter is 0. When this is the first pass of a crash check, the
crash check returns to the monitoring loop in that state. -/
theorem C5_error_state_resubmits {W : Type} (env : Env W) (cfg : Settings) (m : Monitor W)
    (log out : Str) (w1 w2 w3 : W) (ids : JobMap) (id : Nat)
    (hlimit : cfg.eqw_resub_limit < UINT_SIZE)
    (hbudget : m.eqw_resubs < cfg.eqw_resub_limit)
    (hlist : env.popen "sjobs".toList m.sys.world = (some (0, log), w1))
    (hparse : get_job_ids log = some (.ok ids))
    (hfind : ids.find m.job_id = some false)
    (hkill : env.system ("scancel ".toList ++ to_string m.job_id) w1 = (0, w2))
    (hsub : env.popen cfg.sbatch_command w2 = (some (0, out), w3))
    (hid : get_job_id out = .ok id) :
    (∀ k n, crashcheck_for env cfg (k + 1) n m
      = .ok (n,
          { sys := ⟨w3, m.sys.trace ++ [.exec "sjobs".toList,
                      .system ("scancel ".toList ++ to_string m.job_id),
                      .exec cfg.sbatch_command]⟩
            job_id := id
            eqw_resubs := m.eqw_resubs + 1
            seconds_elapsed_since_crashcheck := 0
            sbatch_screen_output := out }))
    ∧ (0 < cfg.crashcheck_attempts → crashcheck env cfg m
      = .ok
          { sys := ⟨w3, m.sys.trace ++ [.exec "sjobs".toList,
                      .system ("scancel ".toList ++ to_string m.job_id),
                      .exec cfg.sbatch_command]⟩
            job_id := id
            eqw_resubs := m.eqw_resubs + 1
            seconds_elapsed_since_crashcheck := 0
            sbatch_screen_output := out }) := by
  have hmod : (m.eqw_resubs + 1) % UINT_SIZE = m.eqw_resubs + 1 :=
    Nat.mod_eq_of_lt (by omega)
  have hk := kill_job_ok env m.job_id ⟨w1, m.sys.trace ++ [.exec "sjobs".toList]⟩ w2 hkill
  have hs := exec_ok env cfg.sbatch_command
    ⟨w2, (m.sys.trace ++ [.exec "sjobs".toList])
      ++ [.system ("scancel ".toList ++ to_string m.job_id)]⟩ 0 out w3 hsub
  have hbody : crashcheck_body env cfg m
      = .brk
          { sys := ⟨w3, m.sys.trace ++ [.exec "sjobs".toList,
                      .system ("scancel ".toList ++ to_string m.job_id),
                      .exec cfg.sbatch_command]⟩
            job_id := id
            eqw_resubs := m.eqw_resubs + 1
            seconds_elapsed_since_crashcheck := 0
            sbatch_screen_output := out } := by
    simp only [crashcheck_body, exec_ok env _ _ _ _ _ hlist, hparse, hfind, hk,
      Nat.not_le.mpr hbudget, resubmit_eqw, hs, hid, hmod]
    simp
  exact ⟨crashcheck_for_of_brk env cfg m _ hbody, crashcheck_of_brk env cfg m _ hbody⟩

/-- Scenario C: job 42 listed with status `E`, limit 3, no resubmission so far. -/
theorem C5_error_state_resubmits_witness :
    crashcheck scripted demo_settings
        (demo_monitor [(0, "h\nu 42 n p E\n".toList), (0, "43\n".toList)] 0 3600)
      = .ok
          { sys := ⟨[], [] ++ [.exec "sjobs".toList, .system ("scancel ".toList ++ to_string 42),
                      .exec "sbatch job.sh".toList]⟩
            job_id := 43
            eqw_resubs := 0 + 1
            seconds_elapsed_since_crashcheck := 0
            sbatch_screen_output := "43\n".toList } :=
  (C5_error_state_resubmits scripted demo_settings
    (demo_monitor [(0, "h\nu 42 n p E\n".toList), (0, "43\n".toList)] 0 3600)
    "h\nu 42 n p E\n".toList "43\n".toList [(0, "43\n".toList)] [(0, "43\n".toList)] []
    (JobMap.empty.assign 42 false) 43
    (by decide) (by decide) (by rfl) (by rfl) (by rfl) (by rfl) (by rfl) (by rfl)).2 (by decide)

/-- C6: let a pass of the crash check find the current job id missing from the listing, with
neither marker there at once nor after the sleep of 120 seconds. Nothing is assumed on the
counter of resubmissions for error states or on its limit. Then, however the submission
goes, the calls made in the pass are the listing, the two marker checks around the sleep, and
one run of the unchanged submission command, and the counter of resubmissions for error
states is what it was. If the submission command returns 0 with an output from which
`get_job_id` reads `id`, the pass leaves the `for` loop by `break`, whatever the number of
attempts made and left, with job id `id` and the elapsed counter at 0; when this is the first
pass of a crash check, the crash check returns to the monitoring loop in that state. -/
theorem C6_missing_job_resubmits {W : Type} (env : Env W) (cfg : Settings) (m : Monitor W)
    (log : Str) (w1 : W) (ids : JobMap)
    (hlist : env.popen "sjobs".toList m.sys.world = (some (0, log), w1))
    (hparse : get_job_ids log = some (.ok ids))
    (hfind : ids.find m.job_id = none)
    (hs1 : env.file_exists ( cfg.logging_prefix ++ ".success".toList) w1 = false)
    (hf1 : env.file_exists ( cfg.logging_prefix ++ ".fail".toList) w1 = false)
    (hs2 : env.file_exists ( cfg.logging_prefix ++ ".success".toList) (env.sleep 120 w1) = false)
    (hf2 : env.file_exists ( cfg.logging_prefix ++ ".fail".toList) (env.sleep 120 w1) = false) :
    ((crashcheck_body env cfg m).monitor.sys.trace
        = m.sys.trace ++ [.exec "sjobs".toList,
            .file_exists ( cfg.logging_prefix ++ ".success".toList),
            .file_exists ( cfg.logging_prefix ++ ".fail".toList),
            .sleep 120,
            .file_exists ( cfg.logging_prefix ++ ".success".toList),
            .file_exists ( cfg.logging_prefix ++ ".fail".toList),
            .exec cfg.sbatch_command]
      ∧ (crashcheck_body env cfg m).monitor.eqw_resubs = m.eqw_resubs)
    ∧ ∀ (out : Str) (w2 : W) (id : Nat),
        env.popen cfg.sbatch_command (env.sleep 120 w1) = (some (0, out), w2) →
        get_job_id out = .ok id →
        (∀ k n, crashcheck_for env cfg (k + 1) n m
          = .ok (n,
              { sys := ⟨w2, m.sys.trace ++ [.exec "sjobs".toList,
                          .file_exists ( cfg.logging_prefix ++ ".success".toList),
                          .file_exists ( cfg.logging_prefix ++ ".fail".toList),
                          .sleep 120,
                          .file_exists ( cfg.logging_prefix ++ ".success".toList),
                          .file_exists ( cfg.logging_prefix ++ ".fail".toList),
                          .exec cfg.sbatch_command]⟩
                job_id := id
                eqw_resubs := m.eqw_resubs
                seconds_elapsed_since_crashcheck := 0
                sbatch_screen_output := out }))
        ∧ (0 < cfg.crashcheck_attempts → crashcheck env cfg m
          = .ok
              { sys := ⟨w2, m.sys.trace ++ [.exec "sjobs".toList,
                          .file_exists ( cfg.logging_prefix ++ ".success".toList),
                          .file_exists ( cfg.logging_prefix ++ ".fail".toList),
                          .sleep 120,
                          .file_exists ( cfg.logging_prefix ++ ".success".toList),
                          .file_exists ( cfg.logging_prefix ++ ".fail".toList),
                          .exec cfg.sbatch_command]⟩
                job_id := id
                eqw_resubs := m.eqw_resubs
                seconds_elapsed_since_crashcheck := 0
                sbatch_screen_output := out }) := by
  have hbody : crashcheck_body env cfg m
      = resubmit_crashed env cfg
          { m with sys := ⟨env.sleep 120 w1, m.sys.trace ++ [.exec "sjobs".toList,
            .file_exists ( cfg.logging_prefix ++ ".success".toList),
            .file_exists ( cfg.logging_prefix ++ ".fail".toList),
            .sleep 120,
            .file_exists ( cfg.logging_prefix ++ ".success".toList),
            .file_exists ( cfg.logging_prefix ++ ".fail".toList)]⟩ } := by
    simp only [crashcheck_body, exec_ok env _ _ _ _ _ hlist, hparse, hfind,
      marker_check_missing, marker_check_waited, fs_exists, do_sleep, hs1, hf1, hs2, hf2]
    simp
  refine ⟨?_, ?_⟩
  · rw [hbody]
    simp only [resubmit_crashed, exec]
    rcases env.popen cfg.sbatch_command (env.sleep 120 w1) with ⟨_ | ⟨status, out⟩, w2⟩
    · simp [Flow.monitor]
    · by_cases hst : status = 0
      · subst hst
        cases hid : get_job_id out <;> simp [Flow.monitor, hid]
      · simp [Flow.monitor, hst]
  · intro out w2 id hsub hid
    have hs : ∀ tr, exec env cfg.sbatch_command ⟨env.sleep 120 w1, tr⟩
        = (.ok 0, out, ⟨w2, tr ++ [.exec cfg.sbatch_command]⟩) :=
      fun tr => exec_ok env cfg.sbatch_command ⟨env.sleep 120 w1, tr⟩ 0 out w2 hsub
    have hbrk : crashcheck_body env cfg m
        = .brk
            { sys := ⟨w2, m.sys.trace ++ [.exec "sjobs".toList,
                        .file_exists ( cfg.logging_prefix ++ ".success".toList),
                        .file_exists ( cfg.logging_prefix ++ ".fail".toList),
                        .sleep 120,
                        .file_exists ( cfg.logging_prefix ++ ".success".toList),
                        .file_exists ( cfg.logging_prefix ++ ".fail".toList),
                        .exec cfg.sbatch_command]⟩
              job_id := id
              eqw_resubs := m.eqw_resubs
              seconds_elapsed_since_crashcheck := 0
              sbatch_screen_output := out } := by
      rw [hbody]
      simp only [resubmit_crashed, hs, hid]
      simp
    exact ⟨crashcheck_for_of_brk env cfg m _ hbrk, crashcheck_of_brk env cfg m _ hbrk⟩

/-- Scenario D: job 42 missing from the listing, no marker before or after the wait. -/
theorem C6_missing_job_resubmits_witness :
    crashcheck scripted demo_settings
        (demo_monitor [(0, "h\n".toList), (0, "43\n".toList)] 7 3600)
      = .ok
          { sys := ⟨[], [] ++ [.exec "sjobs".toList,
                      .file_exists ("out/job".toList ++ ".success".toList),
                      .file_exists ("out/job".toList ++ ".fail".toList),
                      .sleep 120,
                      .file_exists ("out/job".toList ++ ".success".toList),
                      .file_exists ("out/job".toList ++ ".fail".toList),
                      .exec "sbatch job.sh".toList]⟩
            job_id := 43
            eqw_resubs := 7
            seconds_elapsed_since_crashcheck := 0
            sbatch_screen_output := "43\n".toList } :=
  ((C6_missing_job_resubmits scripted demo_settings
    (demo_monitor [(0, "h\n".toList), (0, "43\n".toList)] 7 3600)
    "h\n".toList [(0, "43\n".toList)] JobMap.empty
    (by rfl) (by rfl) (by rfl) (by rfl) (by rfl) (by rfl) (by rfl)).2
    "43\n".toList [] 43 (by rfl) (by rfl)).2 (by decide)

/-- Each of the three marker checks returns what `classify_markers` returns on the two marker
bits of the world it is made in, and none of them changes the world, so a check made right
after another gives the same answer. -/
theorem marker_checks_classify {W : Type} (env : Env W) (cfg : Settings) (y : Sys W) :
    (marker_check_poll env cfg y).1
      = classify_markers (env.file_exists ( cfg.logging_prefix ++ ".success".toList) y.world)
          (env.file_exists ( cfg.logging_prefix ++ ".fail".toList) y.world)
    ∧ (marker_check_missing env cfg y).1 = (marker_check_poll env cfg y).1
    ∧ (marker_check_waited env cfg y).1 = (marker_check_poll env cfg y).1
    ∧ (marker_check_poll env cfg y).2.world = y.world
    ∧ (marker_check_missing env cfg y).2.world = y.world
    ∧ (marker_check_waited env cfg y).2.world = y.world
    ∧ (marker_check_poll env cfg (marker_check_poll env cfg y).2).1
        = (marker_check_poll env cfg y).1
    ∧ (marker_check_waited env cfg (marker_check_missing env cfg y).2).1
        = (marker_check_missing env cfg y).1 := by
  rcases hs : env.file_exists ( cfg.logging_prefix ++ ".success".toList) y.world <;>
    rcases hf : env.file_exists ( cfg.logging_prefix ++ ".fail".toList) y.world <;>
    simp only [marker_check_poll, marker_check_missing, marker_check_waited, fs_exists,
      classify_markers, hs, hf] <;>
    simp

/-! ## Reading numbers and fields -/

theorem isspace_of_isdigit (c : Char) (h : isdigit c = true) : isspace c = false := by
  cases hs : isspace c with
  | false => rfl
  | true =>
    simp only [isspace, Bool.or_eq_true, decide_eq_true_eq] at hs
    rcases hs with ((((rfl | rfl) | rfl) | rfl) | rfl) | rfl <;> exact absurd h (by decide)

/-- On a string that starts with a decimal digit `extract_unsigned` reads the leading run of
digits: it fails when the run denotes more than `UINT_MAX`, else it returns its value. -/
theorem extract_unsigned_digit (c : Char) (rest : Str) (h : isdigit c = true) :
    extract_unsigned ⟨c :: rest, false⟩
      = if decimal_value ((c :: rest).takeWhile isdigit) ≥ UINT_SIZE then
          (⟨(c :: rest).dropWhile isdigit, true⟩, UINT_SIZE - 1)
        else (⟨(c :: rest).dropWhile isdigit, false⟩,
          decimal_value ((c :: rest).takeWhile isdigit)) := by
  have hsp := isspace_of_isdigit c h
  have hminus : c ≠ '-' := by
    rintro rfl
    exact absurd h (by decide)
  have hplus : c ≠ '+' := by
    rintro rfl
    exact absurd h (by decide)
  simp [extract_unsigned, List.dropWhile_cons, List.takeWhile_cons, hsp, h, hminus, hplus]

/-- C8, counterexample: the output `4294967296` starts with a digit and its run of digits
denotes 4294967296, but `get_job_id` throws instead of returning that value; the same holds
with text after the digits. -/
theorem C8_long_run_rejected :
    get_job_id "4294967296".toList
      = .error (.domain_error "cannot parse job id from echo output \"4294967296\"".toList)
    ∧ get_job_id "4294967296".toList
      ≠ .ok (decimal_value ("4294967296".toList.takeWhile isdigit))
    ∧ get_job_id "99999999999 submitted".toList
      ≠ .ok (decimal_value ("99999999999 submitted".toList.takeWhile isdigit)) := by
  decide

/-- C8, amended: for every output whose first character is a decimal digit, if the leading
run of decimal digits denotes a value of at most `UINT_MAX` then `get_job_id` returns exactly
that value, whatever follows the digits; if it denotes more, `get_job_id` throws. -/
theorem C8_leading_digits_read (c : Char) (rest : Str) (h : isdigit c = true) :
    (decimal_value ((c :: rest).takeWhile isdigit) < UINT_SIZE →
      get_job_id (c :: rest) = .ok (decimal_value ((c :: rest).takeWhile isdigit)))
    ∧ (UINT_SIZE ≤ decimal_value ((c :: rest).takeWhile isdigit) →
      get_job_id (c :: rest) = .error (.domain_error
        ("cannot parse job id from echo output \"".toList ++ (c :: rest) ++ "\"".toList))) := by
  constructor
  · intro hlt
    simp only [get_job_id, extract_unsigned_digit c rest h, ge_iff_le, Nat.not_le.mpr hlt,
      if_false]
    simp
  · intro hge
    simp only [get_job_id, extract_unsigned_digit c rest h, ge_iff_le, hge, if_true]

/-- The output `42 submitted` gives job id 42. -/
theorem C8_leading_digits_read_witness :
    get_job_id ('4' :: "2 submitted".toList)
      = .ok (decimal_value (('4' :: "2 submitted".toList).takeWhile isdigit)) :=
  (C8_leading_digits_read '4' "2 submitted".toList (by decide)).1 (by decide)

/-- The empty output, and an output whose first character is not whitespace, a sign or a
decimal digit, do not begin with a number. -/
theorem begins_with_number_plain (out : Str)
    (h : out = [] ∨ ∃ c rest, out = c :: rest ∧ isspace c = false ∧ c ≠ '+' ∧ c ≠ '-'
      ∧ isdigit c = false) :
    begins_with_number out = false := by
  rcases h with rfl | ⟨c, rest, rfl, hsp, hplus, hminus, hd⟩
  · rfl
  · simp [begins_with_number, List.dropWhile_cons, hsp, hplus, hminus, hd]

/-- C9, counterexample: outputs that begin with whitespace or with a sign, and so not with a
decimal digit, from which `get_job_id` nevertheless returns a job id. -/
theorem C9_whitespace_and_sign_accepted :
    get_job_id " 42".toList = .ok 42
    ∧ get_job_id "\n\t42\n".toList = .ok 42
    ∧ get_job_id "+42".toList = .ok 42 := by
  decide

/-- C9, amended: for every output that, after its leading whitespace and at most one sign,
does not go on with a decimal digit (so for the empty output and for a first character
that is a letter, see `begins_with_number_plain`), `get_job_id` throws the domain error
that quotes the output, and returns no job id. -/
theorem C9_no_number_rejected (out : Str) (h : begins_with_number out = false) :
    get_job_id out = .error (.domain_error
      ("cannot parse job id from echo output \"".toList ++ out ++ "\"".toList)) := by
  have hfail : (extract_unsigned ⟨out, false⟩).1.fail = true := by
    unfold begins_with_number at h
    unfold extract_unsigned
    rcases hrest : out.dropWhile isspace with _ | ⟨c, t⟩
    · simp
    · rw [hrest] at h
      dsimp only at h
      by_cases hsign : c = '+' ∨ c = '-'
      · have hs : (c = '+' || c = '-') = true := by simpa using hsign
        rw [hs] at h
        rcases t with _ | ⟨d, t⟩
        · rcases hsign with rfl | rfl <;> simp
        · simp only [if_true] at h
          rcases hsign with rfl | rfl <;> simp [List.takeWhile_cons, h]
      · have hs : (c = '+' || c = '-') = false := by simpa using hsign
        rw [hs] at h
        simp only [Bool.false_eq_true, if_false] at h
        push_neg at hsign
        simp [List.takeWhile_cons, h, hsign.1, hsign.2]
  simp only [get_job_id, hfail, if_true]

/-- An output that starts with a letter, although a number comes later in it. -/
theorem C9_no_number_rejected_witness :
    get_job_id "Submitted batch job 42".toList = .error (.domain_error
      ("cannot parse job id from echo output \"".toList ++ "Submitted batch job 42".toList
        ++ "\"".toList)) :=
  C9_no_number_rejected "Submitted batch job 42".toList (by decide)

/-! ## Splitting a listing into lines -/

theorem find_in_newline_none (t : Str) (h : '\n' ∉ t) : find_in "\n".toList t = none := by
  induction t with
  | nil => rfl
  | cons c t ih =>
    have hc : c ≠ '\n' := fun hc => h (hc ▸ List.mem_cons_self _ _)
    have ht : '\n' ∉ t := fun ht => h (List.mem_cons_of_mem _ ht)
    have hne : ¬ '\n' = c := fun hh => hc hh.symm
    have ih1 := ih ht
    simp only [String.toList] at ih1
    simp [find_in, ih1, hne]

theorem find_in_newline_some (a b : Str) (h : '\n' ∉ a) :
    find_in "\n".toList (a ++ '\n' :: b) = some a.length := by
  induction a with
  | nil => simp [find_in]
  | cons c t ih =>
    have hc : c ≠ '\n' := fun hc => h (hc ▸ List.mem_cons_self _ _)
    have ht : '\n' ∉ t := fun ht => h (List.mem_cons_of_mem _ ht)
    have hne : ¬ '\n' = c := fun hh => hc hh.symm
    have ih1 := ih ht
    simp only [String.toList] at ih1
    simp [find_in, ih1, hne]

theorem find_at_end_of (pre t sep : Str) :
    find (pre ++ t) sep pre.length = (find_in sep t).map (fun i => pre.length + i) := by
  simp [find]

theorem length_le_join_lines (ls : List Str) : ∀ l : Str, ls.length ≤ (join_lines l ls).length := by
  induction ls with
  | nil => intro l; simp
  | cons l1 ls ih =>
    intro l
    have := ih l1
    simp only [join_lines, List.length_append, List.length_cons]
    omega

/-- The loop of `splitline` with separator newline, started at the beginning of a line, pushes
the remaining lines and stops, given one unit of fuel for each of them. -/
theorem splitline_loop_join_lines (ls : List Str) :
    ∀ (l pre : Str) (vec : List Str) (fuel : Nat), '\n' ∉ l → (∀ x ∈ ls, '\n' ∉ x) →
      ls.length < fuel →
      splitline_loop (pre ++ join_lines l ls) "\n".toList fuel pre.length vec
        = some (vec ++ l :: ls) := by
  induction ls with
  | nil =>
    intro l pre vec fuel hl _ hfuel
    obtain ⟨f, rfl⟩ := Nat.exists_eq_succ_of_ne_zero (Nat.pos_iff_ne_zero.mp hfuel)
    simp only [join_lines, splitline_loop, find_at_end_of, find_in_newline_none l hl,
      Option.map_none', substr_from, List.drop_left]
  | cons l1 ls ih =>
    intro l pre vec fuel hl hls hfuel
    obtain ⟨f, rfl⟩ := Nat.exists_eq_succ_of_ne_zero (Nat.pos_iff_ne_zero.mp (by omega : 0 < fuel))
    have hnext := ih l1 (pre ++ l ++ "\n".toList) (vec ++ [l]) f
      (hls l1 (List.mem_cons_self _ _)) (fun x hx => hls x (List.mem_cons_of_mem _ hx))
      (by simpa using hfuel)
    have hs : pre ++ l ++ "\n".toList ++ join_lines l1 ls = pre ++ (l ++ '\n' :: join_lines l1 ls) := by
      simp
    have hlen : (pre ++ l ++ "\n".toList).length = pre.length + l.length + 1 := by
      simp [Nat.add_assoc]
    rw [hs, hlen] at hnext
    simp only [join_lines, splitline_loop, find_at_end_of, find_in_newline_some l _ hl,
      Option.map_some', substr, List.drop_left, Nat.add_sub_cancel_left, List.take_left]
    have hsep : "\n".toList.length = 1 := rfl
    rw [hsep, hnext]
    simp

/-- The function `splitline` with separator newline returns the lines of the text. -/
theorem splitline_join_lines (l : Str) (ls : List Str) (hl : '\n' ∉ l)
    (hls : ∀ x ∈ ls, '\n' ∉ x) :
    splitline (join_lines l ls) "\n".toList = some (l :: ls) := by
  have h := splitline_loop_join_lines ls l [] [] ((join_lines l ls).length + 1) hl hls
    (Nat.lt_succ_of_le (length_le_join_lines ls l))
  simpa [splitline] using h

/-! ## Reading a well-formed data line -/

theorem takeWhile_dropWhile_stop {p : Char → Bool} (a b : Str) (ha : ∀ c ∈ a, p c = true)
    (hb : ∀ c, b.head? = some c → p c = false) :
    (a ++ b).takeWhile p = a ∧ (a ++ b).dropWhile p = b := by
  rw [List.takeWhile_append_of_pos ha, List.dropWhile_append_of_pos ha]
  cases b with
  | nil => simp
  | cons c t => simp [List.takeWhile_cons, List.dropWhile_cons, hb c rfl]

theorem is_blank_spaces (g : Str) (h : is_blank g = true) : ∀ c ∈ g, isspace c = true := by
  intro c hc
  have := (List.all_eq_true.mp h) c hc
  simp only [Bool.and_eq_true] at this
  exact this.1

theorem is_blank_no_newline (g : Str) (h : is_blank g = true) : '\n' ∉ g := by
  intro hc
  have := (List.all_eq_true.mp h) _ hc
  simp at this

theorem is_gap_blank (g : Str) (h : is_gap g = true) : is_blank g = true := by
  simp only [is_gap, Bool.and_eq_true] at h
  exact h.2

theorem is_gap_head (g x : Str) (h : is_gap g = true) :
    ∀ c, (g ++ x).head? = some c → isspace c = true := by
  intro c hc
  cases g with
  | nil => simp [is_gap] at h
  | cons d t =>
    simp only [List.cons_append, List.head?_cons, Option.some.injEq] at hc
    subst hc
    exact is_blank_spaces _ (is_gap_blank _ h) d (List.mem_cons_self _ _)

theorem is_blank_head (g : Str) (h : is_blank g = true) :
    ∀ c, g.head? = some c → isspace c = true := by
  intro c hc
  cases g with
  | nil => simp at hc
  | cons d t =>
    simp only [List.head?_cons, Option.some.injEq] at hc
    subst hc
    exact is_blank_spaces _ h d (List.mem_cons_self _ _)

theorem is_field_no_space (f : Str) (h : is_field f = true) : ∀ c ∈ f, isspace c = false := by
  intro c hc
  simp only [is_field, Bool.and_eq_true] at h
  simpa using (List.all_eq_true.mp h.2) c hc

theorem is_field_ne_nil (f : Str) (h : is_field f = true) : f ≠ [] := by
  rintro rfl
  simp [is_field] at h

theorem is_field_no_newline (f : Str) (h : is_field f = true) : '\n' ∉ f := by
  intro hc
  have := is_field_no_space f h _ hc
  exact absurd this (by decide)

theorem is_job_number_no_newline (d : Str) (h : is_job_number d = true) : '\n' ∉ d := by
  intro hc
  simp only [is_job_number, Bool.and_eq_true] at h
  have := (List.all_eq_true.mp h.1.2) _ hc
  exact absurd this (by decide)

/-- Reading a string from a stream that holds whitespace, then a field, then text that does not
go on the field: the field is returned and the stream is left at that text. -/
theorem extract_string_field (g f rest : Str) (hg : ∀ c ∈ g, isspace c = true)
    (hf : is_field f = true) (hrest : ∀ c, rest.head? = some c → isspace c = true) :
    extract_string ⟨g ++ (f ++ rest), false⟩ = (⟨rest, false⟩, f) := by
  have hne := is_field_ne_nil f hf
  have hns := is_field_no_space f hf
  have hdrop : (g ++ (f ++ rest)).dropWhile isspace = f ++ rest := by
    rw [List.dropWhile_append_of_pos hg]
    cases f with
    | nil => exact absurd rfl hne
    | cons c t => simp [List.dropWhile_cons, hns c (List.mem_cons_self _ _)]
  have hstop := takeWhile_dropWhile_stop (p := fun c => !isspace c) f rest
    (fun c hc => by simp [hns c hc]) (fun c hc => by simp [hrest c hc])
  have hnil : (f ++ rest).isEmpty = false := by
    cases f with
    | nil => exact absurd rfl hne
    | cons c t => rfl
  simp only [extract_string, hdrop, hnil, hstop.1, hstop.2]
  simp

/-- Reading an `unsigned` from a stream that holds whitespace, then a job number, then text that
does not start with a digit: the value of the number is returned and the stream is left at
that text. -/
theorem extract_unsigned_job_number (g d rest : Str) (hg : ∀ c ∈ g, isspace c = true)
    (hd : is_job_number d = true) (hrest : ∀ c, rest.head? = some c → isdigit c = false) :
    extract_unsigned ⟨g ++ (d ++ rest), false⟩ = (⟨rest, false⟩, decimal_value d) := by
  simp only [is_job_number, Bool.and_eq_true, decide_eq_true_eq] at hd
  obtain ⟨⟨hne, hdig⟩, hval⟩ := hd
  have hdig1 : ∀ c ∈ d, isdigit c = true := List.all_eq_true.mp hdig
  cases d with
  | nil => simp at hne
  | cons c t =>
    have hc := hdig1 c (List.mem_cons_self _ _)
    have hdrop : (g ++ (c :: t ++ rest)).dropWhile isspace = c :: (t ++ rest) := by
      rw [List.dropWhile_append_of_pos hg]
      simp [List.dropWhile_cons, isspace_of_isdigit c hc]
    have hstop := takeWhile_dropWhile_stop (p := isdigit) (c :: t) rest hdig1 hrest
    have hminus : c ≠ '-' := by
      rintro rfl
      exact absurd hc (by decide)
    have hplus : c ≠ '+' := by
      rintro rfl
      exact absurd hc (by decide)
    simp only [List.cons_append] at hstop
    simp only [extract_unsigned, hdrop]
    simp [hminus, hplus, hstop.1, hstop.2, Nat.not_le.mpr hval]

theorem not_isdigit_of_isspace (c : Char) (h : isspace c = true) : isdigit c = false := by
  cases hd : isdigit c with
  | false => rfl
  | true => rw [isspace_of_isdigit c hd] at h; exact absurd h (by decide)

/-- The five extractions succeed on a well-formed data line, and give the value of its second
field and its fifth field. -/
theorem parse_sjobs_line_wf (r : DataLine) (h : r.wf = true) :
    parse_sjobs_line r.text = some (r.id, r.jobstat) := by
  simp only [DataLine.wf, Bool.and_eq_true] at h
  obtain ⟨⟨⟨⟨⟨⟨⟨⟨⟨⟨h0, h1⟩, g1⟩, h2⟩, g2⟩, h3⟩, g3⟩, h4⟩, g4⟩, h5⟩, h6⟩ := h
  have e1 := extract_string_field r.lead r.f1
    (r.gap1 ++ (r.jobid ++ (r.gap2 ++ (r.f3 ++ (r.gap3 ++ (r.f4 ++ (r.gap4 ++
      (r.jobstat ++ r.trail))))))))
    (is_blank_spaces _ h0) h1 (is_gap_head _ _ g1)
  have e2 := extract_unsigned_job_number r.gap1 r.jobid
    (r.gap2 ++ (r.f3 ++ (r.gap3 ++ (r.f4 ++ (r.gap4 ++ (r.jobstat ++ r.trail))))))
    (is_blank_spaces _ (is_gap_blank _ g1)) h2
    (fun c hc => not_isdigit_of_isspace c (is_gap_head _ _ g2 c hc))
  have e3 := extract_string_field r.gap2 r.f3
    (r.gap3 ++ (r.f4 ++ (r.gap4 ++ (r.jobstat ++ r.trail))))
    (is_blank_spaces _ (is_gap_blank _ g2)) h3 (is_gap_head _ _ g3)
  have e4 := extract_string_field r.gap3 r.f4 (r.gap4 ++ (r.jobstat ++ r.trail))
    (is_blank_spaces _ (is_gap_blank _ g3)) h4 (is_gap_head _ _ g4)
  have e5 := extract_string_field r.gap4 r.jobstat r.trail
    (is_blank_spaces _ (is_gap_blank _ g4)) h5 (is_blank_head _ h6)
  simp only [parse_sjobs_line, DataLine.text, e1, e2, e3, e4, e5, DataLine.id]
  simp

theorem text_ne_nil_of_wf (r : DataLine) (h : r.wf = true) : r.text.isEmpty = false := by
  simp only [DataLine.wf, Bool.and_eq_true] at h
  have h1 := is_field_ne_nil r.f1 h.1.1.1.1.1.1.1.1.1.2
  cases hl : r.lead with
  | nil =>
    cases hf : r.f1 with
    | nil => exact absurd hf h1
    | cons c t => simp [DataLine.text, hl, hf]
  | cons c t => simp [DataLine.text, hl]

theorem text_no_newline_of_wf (r : DataLine) (h : r.wf = true) : '\n' ∉ r.text := by
  simp only [DataLine.wf, Bool.and_eq_true] at h
  obtain ⟨⟨⟨⟨⟨⟨⟨⟨⟨⟨h0, h1⟩, g1⟩, h2⟩, g2⟩, h3⟩, g3⟩, h4⟩, g4⟩, h5⟩, h6⟩ := h
  simp only [DataLine.text, List.mem_append, not_or]
  exact ⟨is_blank_no_newline _ h0, is_field_no_newline _ h1,
    is_blank_no_newline _ (is_gap_blank _ g1), is_job_number_no_newline _ h2,
    is_blank_no_newline _ (is_gap_blank _ g2), is_field_no_newline _ h3,
    is_blank_no_newline _ (is_gap_blank _ g3), is_field_no_newline _ h4,
    is_blank_no_newline _ (is_gap_blank _ g4), is_field_no_newline _ h5,
    is_blank_no_newline _ h6⟩

/-! ## The snapshot of a well-formed listing -/

theorem listing_wf_header (header : Str) (rows : List (Option DataLine))
    (h : listing_wf header rows = true) : '\n' ∉ header := by
  simp only [listing_wf, Bool.and_eq_true, Bool.not_eq_true'] at h
  intro hc
  have : header.contains '\n' = true := by simpa using hc
  rw [h.1] at this
  exact absurd this (by decide)

theorem listing_wf_rows (header : Str) (rows : List (Option DataLine))
    (h : listing_wf header rows = true) : ∀ r, some r ∈ rows → r.wf = true := by
  simp only [listing_wf, Bool.and_eq_true] at h
  intro r hr
  have := (List.all_eq_true.mp h.2) (some r) hr
  simpa using this

theorem line_text_no_newline (rows : List (Option DataLine))
    (h : ∀ r, some r ∈ rows → r.wf = true) : ∀ x ∈ rows.map line_text, '\n' ∉ x := by
  intro x hx
  obtain ⟨o, ho, rfl⟩ := List.mem_map.mp hx
  cases o with
  | none => simp [line_text]
  | some r => exact text_no_newline_of_wf r (h r ho)

/-- On the lines of a well-formed listing the second loop of `get_job_ids` does not throw, and
ends with the map described by `snapshot`. -/
theorem get_job_ids_loop_wf (rows : List (Option DataLine)) :
    ∀ target : JobMap, (∀ r, some r ∈ rows → r.wf = true) →
      get_job_ids_loop (rows.map line_text) target = .ok (snapshot rows target) := by
  induction rows with
  | nil => intro target _; rfl
  | cons o rows ih =>
    intro target h
    have hrest : ∀ r, some r ∈ rows → r.wf = true := fun r hr => h r (List.mem_cons_of_mem _ hr)
    cases o with
    | none =>
      simp only [List.map_cons, line_text, get_job_ids_loop, snapshot, List.isEmpty_nil, if_true]
      exact ih target hrest
    | some r =>
      have hwf := h r (List.mem_cons_self _ _)
      simp only [List.map_cons, line_text, get_job_ids_loop, snapshot, text_ne_nil_of_wf r hwf,
        parse_sjobs_line_wf r hwf, Bool.false_eq_true, if_false]
      exact ih _ hrest

theorem snapshot_append (pre post : List (Option DataLine)) :
    ∀ target : JobMap, snapshot (pre ++ post) target = snapshot post (snapshot pre target) := by
  induction pre with
  | nil => intro target; rfl
  | cons o pre ih =>
    intro target
    cases o with
    | none => simpa [snapshot] using ih target
    | some r => simpa [snapshot] using ih _

/-- A job id that is on none of the lines keeps the entry it had. -/
theorem snapshot_frame (rows : List (Option DataLine)) (k : Nat) :
    ∀ target : JobMap, (∀ r, some r ∈ rows → r.id ≠ k) →
      (snapshot rows target).find k = target.find k := by
  induction rows with
  | nil => intro target _; rfl
  | cons o rows ih =>
    intro target h
    have hrest : ∀ r, some r ∈ rows → r.id ≠ k := fun r hr => h r (List.mem_cons_of_mem _ hr)
    cases o with
    | none => simpa [snapshot] using ih target hrest
    | some r =>
      have hne : k ≠ r.id := fun hk => h r (List.mem_cons_self _ _) hk.symm
      rw [snapshot, ih _ hrest]
      simp [JobMap.find, JobMap.assign, hne]

/-- The keys of the snapshot are the keys there were and the job ids on the lines. -/
theorem snapshot_keys (rows : List (Option DataLine)) (k : Nat) :
    ∀ target : JobMap, ((snapshot rows target).find k).isSome = true
      ↔ ((target.find k).isSome = true ∨ ∃ r, some r ∈ rows ∧ r.id = k) := by
  induction rows with
  | nil => intro target; simp [snapshot]
  | cons o rows ih =>
    intro target
    cases o with
    | none =>
      rw [snapshot, ih target]
      simp
    | some r =>
      rw [snapshot, ih _]
      by_cases hk : k = r.id
      · subst hk
        simp [JobMap.find, JobMap.assign]
      · have hk1 : ¬ r.id = k := fun h => hk h.symm
        simp [JobMap.find, JobMap.assign, hk, hk1]

/-- The entry of a job id is decided by the last line that has it. -/
theorem snapshot_last (pre post : List (Option DataLine)) (r : DataLine) (target : JobMap)
    (h : ∀ r1, some r1 ∈ post → r1.id ≠ r.id) :
    (snapshot (pre ++ some r :: post) target).find r.id = some (r.jobstat != "E".toList) := by
  rw [snapshot_append, snapshot, snapshot_frame post r.id _ h]
  simp [JobMap.find, JobMap.assign]

/-- C7, counterexample. (1) A well-formed listing in which job 42 is on two lines, first with
status `E`, then with status `R`: the snapshot maps 42 to `true`, although the status of a
line of job 42 is exactly `E`. (2) A listing whose only data line has five fields with the
integer 4294967296 as the second: `get_job_ids` throws. -/
theorem C7_repeated_id_and_large_id :
    (listing_wf "h".toList
        [some (plain_line "u".toList "42".toList "n".toList "p".toList "E".toList),
         some (plain_line "u".toList "42".toList "n".toList "p".toList "R".toList)] = true
      ∧ join_lines "h".toList
          ([some (plain_line "u".toList "42".toList "n".toList "p".toList "E".toList),
            some (plain_line "u".toList "42".toList "n".toList "p".toList "R".toList)].map
              line_text)
        = "h\nu 42 n p E\nu 42 n p R".toList
      ∧ (get_job_ids "h\nu 42 n p E\nu 42 n p R".toList).map
          (fun res => res.map (fun m => m.find 42)) = some (.ok (some true)))
    ∧ (get_job_ids "h\nu 4294967296 n p R".toList).map (fun res => res.map (fun m => m.find 0))
        = some (.error (.domain_error
            "cannot parse sjobs line \"u 4294967296 n p R\"".toList)) := by
  decide

/-- C7, amended: for every well-formed listing (a first line, then lines each empty or made of
five whitespace-separated fields of which the second is a run of decimal digits denoting at
most `UINT_MAX`), `get_job_ids` returns a snapshot `m` such that: the keys of `m` are exactly
the job ids on the data lines; and for each data line that is the last one with its job id,
the value for that id is `false` if and only if the fifth field of the line is exactly `E`
(it is `true` for every other status). -/
theorem C7_snapshot_of_listing (header : Str) (rows : List (Option DataLine))
    (hwf : listing_wf header rows = true) :
    ∃ m : JobMap, get_job_ids (join_lines header (rows.map line_text)) = some (.ok m)
      ∧ (∀ k, (m.find k).isSome = true ↔ ∃ r, some r ∈ rows ∧ r.id = k)
      ∧ (∀ pre r post, rows = pre ++ some r :: post → (∀ r1, some r1 ∈ post → r1.id ≠ r.id) →
          (m.find r.id = some false ↔ r.jobstat = "E".toList)
          ∧ (m.find r.id = some true ↔ r.jobstat ≠ "E".toList)) := by
  have hrows := listing_wf_rows header rows hwf
  refine ⟨snapshot rows JobMap.empty, ?_, ?_, ?_⟩
  · simp only [get_job_ids, splitline_join_lines header (rows.map line_text)
      (listing_wf_header header rows hwf) (line_text_no_newline rows hrows),
      get_job_ids_loop_wf rows JobMap.empty hrows]
  · intro k
    rw [snapshot_keys rows k JobMap.empty]
    simp [JobMap.find, JobMap.empty]
  · intro pre r post hsplit hlast
    subst hsplit
    rw [snapshot_last pre post r JobMap.empty hlast]
    by_cases hE : r.jobstat = "E".toList
    · simp [hE]
    · have hE1 : ¬ r.jobstat = ['E'] := hE
      simp [hE1]

/-- A listing with a header, jobs 42 (status `R`), 43 (status `E`) and 44 (status `Eqw`), and
a final newline. -/
theorem C7_snapshot_of_listing_witness :
    ∃ m : JobMap,
      get_job_ids (join_lines "JOBID".toList
        ([some (plain_line "u1".toList "42".toList "job".toList "norm".toList "R".toList),
          some (plain_line "u1".toList "43".toList "job".toList "norm".toList "E".toList),
          some (plain_line "u1".toList "44".toList "job".toList "norm".toList "Eqw".toList),
          none].map line_text)) = some (.ok m)
      ∧ m.find 42 = some true ∧ m.find 43 = some false ∧ m.find 44 = some true
      ∧ m.find 45 = none := by
  obtain ⟨m, hm, hkeys, hlast⟩ := C7_snapshot_of_listing "JOBID".toList
    [some (plain_line "u1".toList "42".toList "job".toList "norm".toList "R".toList),
     some (plain_line "u1".toList "43".toList "job".toList "norm".toList "E".toList),
     some (plain_line "u1".toList "44".toList "job".toList "norm".toList "Eqw".toList),
     none] (by decide)
  refine ⟨m, hm, ?_⟩
  rw [hm.symm.trans (by rfl : get_job_ids _ = some (.ok (snapshot
    [some (plain_line "u1".toList "42".toList "job".toList "norm".toList "R".toList),
     some (plain_line "u1".toList "43".toList "job".toList "norm".toList "E".toList),
     some (plain_line "u1".toList "44".toList "job".toList "norm".toList "Eqw".toList),
     none] JobMap.empty))) |> Option.some.inj |> Except.ok.inj]
  decide

/-! ## Startup -/

/-- C11, on the code: with no job name given and output prefix `/data/123`, the candidate
`123` has no character that is not a digit, the search returns `npos` and `substr` throws
`std::out_of_range`; the fallback to `bash` on line 48 is never reached. The same happens
for a prefix that ends in `/` and for an explicit job name made of digits. -/
theorem C11_digits_only_name_throws :
    derive_job_name [] "/data/123".toList = .error (.out_of_range "basic_string::substr".toList)
    ∧ derive_job_name [] "out/".toList = .error (.out_of_range "basic_string::substr".toList)
    ∧ derive_job_name "2024".toList "out/job".toList
        = .error (.out_of_range "basic_string::substr".toList)
    ∧ derive_job_name [] "/data/123abc".toList = .ok "abc".toList := by
  decide

set_option maxRecDepth 8000 in
/-- C16, on the code: with job name `alignment` the derived job name is `alignment`, and the
command that is submitted is made of the output prefix (twice), the queue, the resource
string and the script; the job name does not occur in it. -/
theorem C16_job_name_not_in_command :
    started (startup scripted demo_cargs 3 [(0, "42\n".toList)])
      = some ("alignment".toList,
          "sbatch --output out/job.output -error out/job.error --partition norm --time=2:00:00 --mem=17g --no-requeue run.sh".toList,
          [.file_exists "out/job.success".toList, .file_exists "out/job.fail".toList,
            .exec "sbatch --output out/job.output -error out/job.error --partition norm --time=2:00:00 --mem=17g --no-requeue run.sh".toList,
            .sleep 1], 42, 0, 0)
    ∧ ¬ ("alignment".toList <:+:
          build_sbatch_command demo_cargs.output_prefix demo_cargs.queue demo_cargs.resources
            demo_cargs.command_script) := by
  constructor <;> decide


/-! ## More on the crash check -/

/-- A pass that leaves `main` ends the `for` loop with that outcome. -/
theorem crashcheck_for_of_stop {W : Type} (env : Env W) (cfg : Settings) (m m1 : Monitor W)
    (o : Outcome) (h : crashcheck_body env cfg m = .stop o m1) :
    ∀ k n, crashcheck_for env cfg (k + 1) n m = .error (o, m1) := by
  intro k n
  simp only [crashcheck_for, h]

/-- A first pass that leaves `main` ends the crash check with that outcome. -/
theorem crashcheck_of_stop {W : Type} (env : Env W) (cfg : Settings) (m m1 : Monitor W)
    (o : Outcome) (h : crashcheck_body env cfg m = .stop o m1) :
    0 < cfg.crashcheck_attempts → crashcheck env cfg m = .error (o, m1) := by
  intro hpos
  obtain ⟨k, hk⟩ := Nat.exists_eq_succ_of_ne_zero (Nat.pos_iff_ne_zero.mp hpos)
  simp only [crashcheck, hk, crashcheck_for_of_stop env cfg m m1 o h]

/-- The trace at the end of a resubmission for an error state starts with the trace there
was. -/
theorem resubmit_eqw_trace {W : Type} (env : Env W) (cfg : Settings) (m : Monitor W) :
    (resubmit_eqw env cfg m).monitor.sys.trace = m.sys.trace ++ [.exec cfg.sbatch_command] := by
  simp only [resubmit_eqw, exec]
  rcases env.popen cfg.sbatch_command m.sys.world with ⟨_ | ⟨status, out⟩, w2⟩
  · simp [Flow.monitor]
  · by_cases hst : status = 0
    · subst hst
      cases hid : get_job_id out <;> simp [Flow.monitor, hid]
    · simp [Flow.monitor, hst]

/-- C13: let a pass of the crash check find the current job id in the listing with the error
flag. Nothing is assumed on the counter of resubmissions or its limit. Then the second call
of the pass, right after the listing, is `scancel` of the current job id, whatever the
budget and however the pass goes on. If that command returns a non-zero status, the pass
ends the process with the runtime error of `kill_job`, whatever the number of attempts made
and left: the calls made are the listing and the `scancel` only, and no local of the monitor
has changed, the counter of resubmissions included. -/
theorem C13_kill_failure_is_fatal {W : Type} (env : Env W) (cfg : Settings) (m : Monitor W)
    (log : Str) (w1 : W) (ids : JobMap)
    (hlist : env.popen "sjobs".toList m.sys.world = (some (0, log), w1))
    (hparse : get_job_ids log = some (.ok ids))
    (hfind : ids.find m.job_id = some false) :
    (∃ rest, (crashcheck_body env cfg m).monitor.sys.trace
        = m.sys.trace ++ [.exec "sjobs".toList,
            .system ("scancel ".toList ++ to_string m.job_id)] ++ rest)
    ∧ ∀ (status : Int) (w2 : W),
        env.system ("scancel ".toList ++ to_string m.job_id) w1 = (status, w2) → status ≠ 0 →
        (∀ k n, crashcheck_for env cfg (k + 1) n m
          = .error (.uncaught (.runtime_error ("kill command failed: \"".toList
                ++ ("scancel ".toList ++ to_string m.job_id) ++ "\"".toList)),
              { m with sys := ⟨w2, m.sys.trace ++ [.exec "sjobs".toList,
                  .system ("scancel ".toList ++ to_string m.job_id)]⟩ }))
        ∧ (0 < cfg.crashcheck_attempts → crashcheck env cfg m
          = .error (.uncaught (.runtime_error ("kill command failed: \"".toList
                ++ ("scancel ".toList ++ to_string m.job_id) ++ "\"".toList)),
              { m with sys := ⟨w2, m.sys.trace ++ [.exec "sjobs".toList,
                  .system ("scancel ".toList ++ to_string m.job_id)]⟩ })) := by
  have hbody : crashcheck_body env cfg m
      = match kill_job env m.job_id ⟨w1, m.sys.trace ++ [.exec "sjobs".toList]⟩ with
        | (.error e, y1) => .stop (.uncaught e) { m with sys := y1 }
        | (.ok _, y1) =>
          if m.eqw_resubs ≥ cfg.eqw_resub_limit then .next { m with sys := y1 }
          else resubmit_eqw env cfg { m with sys := y1 } := by
    simp only [crashcheck_body, exec_ok env _ _ _ _ _ hlist, hparse, hfind]
    rfl
  refine ⟨?_, ?_⟩
  · rw [hbody]
    rcases hk : env.system ("scancel ".toList ++ to_string m.job_id) w1 with ⟨status, w2⟩
    by_cases hst : status = 0
    · subst hst
      by_cases hb : m.eqw_resubs ≥ cfg.eqw_resub_limit
      · refine ⟨[], ?_⟩
        simp only [kill_job, hk, ne_eq, not_true_eq_false, if_false, hb, if_true, Flow.monitor]
        simp
      · refine ⟨[.exec cfg.sbatch_command], ?_⟩
        simp only [kill_job, hk, ne_eq, not_true_eq_false, if_false, hb, resubmit_eqw_trace]
        simp
    · refine ⟨[], ?_⟩
      simp only [kill_job, hk, ne_eq, hst, not_false_eq_true, if_true, Flow.monitor]
      simp
  · intro status w2 hkill hst
    have hstop : crashcheck_body env cfg m
        = .stop (.uncaught (.runtime_error ("kill command failed: \"".toList
              ++ ("scancel ".toList ++ to_string m.job_id) ++ "\"".toList)))
            { m with sys := ⟨w2, m.sys.trace ++ [.exec "sjobs".toList,
                .system ("scancel ".toList ++ to_string m.job_id)]⟩ } := by
      rw [hbody]
      simp only [kill_job, hkill, ne_eq, hst, not_false_eq_true, if_true]
      simp
    exact ⟨crashcheck_for_of_stop env cfg m _ _ hstop, crashcheck_of_stop env cfg m _ _ hstop⟩


/-- Job 42 is listed with status `E` and `scancel 42` returns status 1. -/
theorem C13_kill_failure_is_fatal_witness :
    crashcheck scripted_kill_fails demo_settings
        (demo_monitor [(0, "h\nu 42 n p E\n".toList), (0, "43\n".toList)] 0 3600)
      = .error (.uncaught (.runtime_error ("kill command failed: \"".toList
              ++ ("scancel ".toList ++ to_string 42) ++ "\"".toList)),
          { demo_monitor [(0, "h\nu 42 n p E\n".toList), (0, "43\n".toList)] 0 3600 with
            sys := ⟨[(0, "43\n".toList)], [] ++ [.exec "sjobs".toList,
              .system ("scancel ".toList ++ to_string 42)]⟩ }) :=
  ((C13_kill_failure_is_fatal scripted_kill_fails demo_settings
    (demo_monitor [(0, "h\nu 42 n p E\n".toList), (0, "43\n".toList)] 0 3600)
    "h\nu 42 n p E\n".toList [(0, "43\n".toList)] (JobMap.empty.assign 42 false)
    (by rfl) (by rfl) (by rfl)).2 1 [(0, "43\n".toList)] (by rfl) (by decide)).2 (by decide)


/-! ## Splitting on any separator -/

theorem splitline_call_eq (s : Str) (vec : List Str) (sep : Str) :
    splitline_call s vec sep = splitline s sep := rfl

theorem get_job_ids_call_eq (sjobs : Str) (target : JobMap) :
    get_job_ids_call sjobs target = get_job_ids sjobs := rfl

theorem join_with_cons (sep a : Str) (toks : List Str) (h : toks ≠ []) :
    join_with sep (a :: toks) = a ++ sep ++ join_with sep toks := by
  cases toks with
  | nil => exact absurd rfl h
  | cons b rest => rfl

/-- When the search finds nothing, the separator does not occur. -/
theorem find_in_none_not_infix (sep : Str) :
    ∀ t : Str, find_in sep t = none → ¬ sep <:+: t := by
  intro t
  induction t with
  | nil =>
    intro h hin
    have hnil := List.eq_nil_of_infix_nil hin
    subst hnil
    simp [find_in] at h
  | cons c t ih =>
    intro h hin
    by_cases hp : sep.isPrefixOf (c :: t) = true
    · simp [find_in, hp] at h
    · simp only [find_in, hp, Bool.false_eq_true, if_false, Option.map_eq_none'] at h
      rcases List.infix_cons_iff.mp hin with hpre | hrest
      · exact hp (List.isPrefixOf_iff_prefix.mpr hpre)
      · exact ih h hrest

/-- When the search finds the separator at offset `i`, the text is `a ++ sep ++ b` with `a` of
length `i`, and the separator does not occur in `a`. -/
theorem find_in_some_split (sep : Str) (hsep : sep ≠ []) :
    ∀ (t : Str) (i : Nat), find_in sep t = some i →
      ∃ a b, t = a ++ sep ++ b ∧ a.length = i ∧ ¬ sep <:+: a := by
  intro t
  induction t with
  | nil =>
    intro i h
    cases sep with
    | nil => exact absurd rfl hsep
    | cons d ds => simp [find_in] at h
  | cons c t ih =>
    intro i h
    by_cases hp : sep.isPrefixOf (c :: t) = true
    · simp only [find_in, hp, if_true, Option.some.injEq] at h
      obtain ⟨b, hb⟩ := List.isPrefixOf_iff_prefix.mp hp
      refine ⟨[], b, by simpa using hb.symm, by simpa using h, ?_⟩
      intro hin
      exact hsep (List.eq_nil_of_infix_nil hin)
    · simp only [find_in, hp, Bool.false_eq_true, if_false, Option.map_eq_some'] at h
      obtain ⟨j, hj, rfl⟩ := h
      obtain ⟨a, b, hab, hlen, hno⟩ := ih j hj
      refine ⟨c :: a, b, by simp [hab], by simp [hlen], ?_⟩
      intro hin
      rcases List.infix_cons_iff.mp hin with hpre | hrest
      · apply hp
        apply List.isPrefixOf_iff_prefix.mpr
        obtain ⟨x, hx⟩ := hpre
        exact ⟨x ++ sep ++ b, by rw [hab, ← List.append_assoc, ← List.append_assoc, hx]; simp⟩
      · exact hno hrest

/-- The tokens of a text: for a non-empty separator there is a list of tokens, not empty, that
joined with the separator give the text back, none of which contains the separator, and of
which there are at most one more than the text has characters; the loop of `splitline`,
started at the beginning of the text with enough fuel, pushes exactly these and stops. -/
theorem splitline_loop_tokens (sep : Str) (hsep : sep ≠ []) :
    ∀ (n : Nat) (t : Str), t.length ≤ n →
      ∃ toks : List Str, toks ≠ [] ∧ join_with sep toks = t ∧ (∀ x ∈ toks, ¬ sep <:+: x)
        ∧ toks.length ≤ t.length + 1
        ∧ ∀ (fuel : Nat) (pre : Str) (vec : List Str), t.length < fuel →
            splitline_loop (pre ++ t) sep fuel pre.length vec = some (vec ++ toks) := by
  have hpos : 0 < sep.length := List.length_pos.mpr hsep
  intro n
  induction n with
  | zero =>
    intro t ht
    have ht0 : t = [] := List.length_eq_zero.mp (Nat.le_zero.mp ht)
    subst ht0
    have hnone : find_in sep [] = none := by
      cases sep with
      | nil => exact absurd rfl hsep
      | cons d ds => simp [find_in]
    refine ⟨[[]], by simp, rfl, ?_, by simp, ?_⟩
    · intro x hx hin
      simp only [List.mem_singleton] at hx
      subst hx
      exact hsep (List.eq_nil_of_infix_nil hin)
    · intro fuel pre vec hfuel
      obtain ⟨f, rfl⟩ := Nat.exists_eq_succ_of_ne_zero (Nat.pos_iff_ne_zero.mp hfuel)
      simp only [splitline_loop, find_at_end_of, hnone, Option.map_none', substr_from,
        List.drop_left]
  | succ n ih =>
    intro t ht
    cases hfind : find_in sep t with
    | none =>
      refine ⟨[t], by simp, rfl, ?_, by simp, ?_⟩
      · intro x hx
        simp only [List.mem_singleton] at hx
        subst hx
        exact find_in_none_not_infix sep x hfind
      · intro fuel pre vec hfuel
        obtain ⟨f, rfl⟩ := Nat.exists_eq_succ_of_ne_zero
          (Nat.pos_iff_ne_zero.mp (Nat.lt_of_le_of_lt (Nat.zero_le _) hfuel))
        simp only [splitline_loop, find_at_end_of, hfind, Option.map_none', substr_from,
          List.drop_left]
    | some i =>
      obtain ⟨a, b, hab, hlen, hno⟩ := find_in_some_split sep hsep t i hfind
      have htlen : t.length = a.length + sep.length + b.length := by
        rw [hab]; simp [Nat.add_assoc]
      obtain ⟨toks, hne, hjoin, hnone, hcount, hloop⟩ := ih b (by omega)
      refine ⟨a :: toks, by simp, ?_, ?_, ?_, ?_⟩
      · rw [join_with_cons sep a toks hne, hjoin, hab]
      · intro x hx
        rcases List.mem_cons.mp hx with rfl | hx
        · exact hno
        · exact hnone x hx
      · simp only [List.length_cons]
        omega
      · intro fuel pre vec hfuel
        obtain ⟨f, rfl⟩ := Nat.exists_eq_succ_of_ne_zero
          (Nat.pos_iff_ne_zero.mp (Nat.lt_of_le_of_lt (Nat.zero_le _) hfuel))
        have hnext := hloop f (pre ++ a ++ sep) (vec ++ [a]) (by omega)
        have hs : pre ++ a ++ sep ++ b = pre ++ t := by
          rw [hab]; simp
        have hl : (pre ++ a ++ sep).length = pre.length + i + sep.length := by
          simp [hlen, Nat.add_assoc]
        rw [hs, hl] at hnext
        have htake : List.take i t = a := by
          rw [hab, ← hlen, List.append_assoc, List.take_left]
        simp only [splitline_loop, find_at_end_of, hfind, Option.map_some', substr,
          List.drop_left, Nat.add_sub_cancel_left, htake]
        rw [hnext]
        simp


/-- C19: for every string `s`, every non-empty separator and whatever the vector held before,
`splitline` returns, and the vector then holds a list of tokens that is not empty, that
joined with the separator gives `s` back exactly, and of which no token contains the
separator. -/
theorem C19_splitline_tokens (s sep : Str) (prior : List Str) (hsep : sep ≠ []) :
    ∃ toks : List Str, splitline_call s prior sep = some toks ∧ toks ≠ []
      ∧ join_with sep toks = s ∧ ∀ x ∈ toks, ¬ sep <:+: x := by
  obtain ⟨toks, hne, hjoin, hnone, -, hloop⟩ := splitline_loop_tokens sep hsep s.length s le_rfl
  refine ⟨toks, ?_, hne, hjoin, hnone⟩
  have h := hloop (s.length + 1) [] [] (Nat.lt_succ_self _)
  simpa [splitline_call, clear_vec] using h

/-- The text `a,b,,c` split on a comma into a vector that held something else. -/
theorem C19_splitline_tokens_witness :
    ∃ toks : List Str, splitline_call "a,b,,c".toList ["old".toList] ",".toList = some toks
      ∧ toks ≠ [] ∧ join_with ",".toList toks = "a,b,,c".toList
      ∧ ∀ x ∈ toks, ¬ ",".toList <:+: x :=
  C19_splitline_tokens "a,b,,c".toList ",".toList ["old".toList] (by decide)

theorem find_in_empty_sep (t : Str) : find_in [] t = some 0 := by
  cases t <;> simp [find_in]

/-- With an empty separator one more iteration leaves the cursor at 0 and pushes an empty
token. -/
theorem splitline_loop_empty_sep_iterate (s : Str) :
    ∀ (k fuel : Nat) (vec : List Str),
      splitline_loop s [] (k + fuel) 0 vec
        = splitline_loop s [] fuel 0 (vec ++ List.replicate k []) := by
  intro k
  induction k with
  | zero => intro fuel vec; simp
  | succ k ih =>
    intro fuel vec
    have hk : k + 1 + fuel = (k + fuel) + 1 := by omega
    rw [hk]
    simp only [splitline_loop, find, Nat.zero_le, if_true, List.drop_zero, find_in_empty_sep,
      Option.map_some', substr, List.take_zero, List.length_nil, Nat.add_zero, Nat.sub_self]
    rw [ih fuel (vec ++ [[]])]
    simp [List.replicate_succ]

/-- C20: (1) for every string and every non-empty separator the loop of `splitline` stops:
there is a list of at most `|s| + 1` tokens that it returns for every fuel above `|s|`, so
in particular for the `|s| + 1` iterations `splitline` gives it; (2) whenever the loop goes
round, the new cursor `loc + sep.size()` is above the old one and within the string; (3)
with an empty separator the search finds the separator at the cursor itself, so the new
cursor is the old one; (4) after `k` iterations from cursor 0 the loop is at cursor 0 again
with `k` empty tokens pushed; (5) and it does not stop, whatever the fuel. -/
theorem C20_splitline_terminates_iff_sep_nonempty :
    (∀ s sep : Str, sep ≠ [] →
      ∃ toks : List Str, toks.length ≤ s.length + 1
        ∧ (∀ fuel, s.length < fuel → splitline_loop s sep fuel 0 [] = some toks)
        ∧ splitline s sep = some toks)
    ∧ (∀ (s sep : Str) (cur loc : Nat), sep ≠ [] → find s sep cur = some loc →
        cur < loc + sep.length ∧ loc + sep.length ≤ s.length)
    ∧ (∀ (s : Str) (cur : Nat), cur ≤ s.length → find s [] cur = some cur)
    ∧ (∀ (s : Str) (k fuel : Nat) (vec : List Str),
        splitline_loop s [] (k + fuel) 0 vec
          = splitline_loop s [] fuel 0 (vec ++ List.replicate k []))
    ∧ (∀ (s : Str) (fuel : Nat) (vec : List Str), splitline_loop s [] fuel 0 vec = none) := by
  refine ⟨?_, ?_, ?_, splitline_loop_empty_sep_iterate, ?_⟩
  · intro s sep hsep
    obtain ⟨toks, -, -, -, hcount, hloop⟩ := splitline_loop_tokens sep hsep s.length s le_rfl
    have hall : ∀ fuel, s.length < fuel → splitline_loop s sep fuel 0 [] = some toks := by
      intro fuel hfuel
      simpa using hloop fuel [] [] hfuel
    exact ⟨toks, hcount, hall, hall _ (Nat.lt_succ_self _)⟩
  · intro s sep cur loc hsep hfind
    have hpos : 0 < sep.length := List.length_pos.mpr hsep
    unfold find at hfind
    by_cases hcur : cur ≤ s.length
    · simp only [hcur, if_true, Option.map_eq_some'] at hfind
      obtain ⟨i, hi, rfl⟩ := hfind
      obtain ⟨a, b, hab, hlen, -⟩ := find_in_some_split sep hsep _ i hi
      have hl : (s.drop cur).length = a.length + sep.length + b.length := by
        rw [hab]; simp [Nat.add_assoc]
      rw [List.length_drop] at hl
      omega
    · simp [hcur] at hfind
  · intro s cur hcur
    simp [find, hcur, find_in_empty_sep]
  · intro s fuel vec
    have h := splitline_loop_empty_sep_iterate s fuel 0 vec
    simpa [splitline_loop] using h

/-- Every text splits into at least one line. -/
theorem splitline_newline_cons (s : Str) :
    ∃ (l : Str) (data : List Str), splitline s "\n".toList = some (l :: data) := by
  obtain ⟨toks, hne, -, -, -, hloop⟩ :=
    splitline_loop_tokens "\n".toList (by decide) s.length s le_rfl
  have h : splitline s "\n".toList = some toks := by
    simpa [splitline] using hloop (s.length + 1) [] [] (Nat.lt_succ_self _)
  cases toks with
  | nil => exact absurd rfl hne
  | cons l data => exact ⟨l, data, h⟩


/-- C18: for a listing with no data line, that is a first line `header` (possibly empty) alone
or followed by a newline, `get_job_ids` returns and leaves the map empty, whatever the map
held before. And for every text, `splitline` gives a first line and the remaining lines,
so that `get_job_ids` goes on to its second loop over these: the branch that throws
`inadequate total line count` is never taken. -/
theorem C18_no_data_lines (header : Str) (prior : JobMap) (hheader : '\n' ∉ header) :
    get_job_ids_call header prior = some (.ok JobMap.empty)
    ∧ get_job_ids_call (header ++ "\n".toList) prior = some (.ok JobMap.empty)
    ∧ ∀ (s : Str) (target : JobMap), ∃ (l : Str) (data : List Str),
        splitline_call s [] "\n".toList = some (l :: data)
        ∧ get_job_ids_call s target = some (get_job_ids_loop data JobMap.empty) := by
  refine ⟨?_, ?_, ?_⟩
  · have h := splitline_join_lines header [] hheader (by simp)
    simp only [join_lines] at h
    simp only [get_job_ids_call, splitline_call_eq, h]
    rfl
  · have h := splitline_join_lines header [[]] hheader (by simp)
    have ht : join_lines header [[]] = header ++ "\n".toList := rfl
    rw [ht] at h
    simp only [get_job_ids_call, splitline_call_eq, h]
    rfl
  · intro s target
    obtain ⟨l, data, h⟩ := splitline_newline_cons s
    refine ⟨l, data, h, ?_⟩
    simp only [get_job_ids_call, splitline_call_eq, h]
    rfl

/-- A header line alone, into a map that held job 7. -/
theorem C18_no_data_lines_witness :
    get_job_ids_call "JOBID USER NAME PARTITION ST".toList (JobMap.empty.assign 7 true)
      = some (.ok JobMap.empty) :=
  (C18_no_data_lines "JOBID USER NAME PARTITION ST".toList (JobMap.empty.assign 7 true)
    (by decide)).1


/-! ## The cadence of the crash check -/

theorem monitor_passes_succ {W : Type} (env : Env W) (cfg : Settings) :
    ∀ (k : Nat) (m : Monitor W), monitor_passes env cfg (k + 1) m
      = match monitor_passes env cfg k m with
        | .error r => .error r
        | .ok m1 => monitor_body env cfg m1 := by
  intro k
  induction k with
  | zero =>
    intro m
    simp only [monitor_passes]
    cases monitor_body env cfg m <;> rfl
  | succ k ih =>
    intro m
    rw [monitor_passes]
    cases hb : monitor_body env cfg m with
    | error r => simp [monitor_passes, hb]
    | ok m1 =>
      simp only []
      rw [ih m1]
      conv_rhs => rw [monitor_passes]
      simp [hb]

/-- One more pass from the state after `k` quiet passes: with no marker there and no
wrap-around, the pass sleeps, and runs the crash check exactly when the elapsed counter has
reached the interval. -/
theorem monitor_body_polled {W : Type} (env : Env W) (cfg : Settings) (m : Monitor W) (k : Nat)
    (hs : env.file_exists ( cfg.logging_prefix ++ ".success".toList)
      (poll_world env cfg k m.sys.world) = false)
    (hf : env.file_exists ( cfg.logging_prefix ++ ".fail".toList)
      (poll_world env cfg k m.sys.world) = false)
    (hwrap : (k + 1) * cfg.sleep_in_seconds < UINT_SIZE) :
    monitor_body env cfg (polled env cfg k m)
      = if (k + 1) * cfg.sleep_in_seconds ≥ cfg.crashcheck_interval_in_seconds then
          crashcheck env cfg (polled env cfg (k + 1) m)
        else .ok (polled env cfg (k + 1) m) := by
  have hmod : (k * cfg.sleep_in_seconds + cfg.sleep_in_seconds) % UINT_SIZE
      = (k + 1) * cfg.sleep_in_seconds := by
    rw [Nat.mod_eq_of_lt (by rw [← Nat.succ_mul]; exact hwrap), Nat.succ_mul]
  simp only [monitor_body, marker_check_poll, fs_exists, polled, hs, hf, do_sleep, hmod,
    poll_world, poll_events, List.append_assoc, List.singleton_append, List.cons_append,
    List.nil_append]

theorem first_crashcheck_pass_reaches (s I : Nat) (hs : 0 < s) :
    I ≤ first_crashcheck_pass s I * s := by
  have h1 : (I + s - 1) / s ≤ first_crashcheck_pass s I := le_max_right _ _
  have h2 : (I + s - 1) / s * s ≤ first_crashcheck_pass s I * s := Nat.mul_le_mul_right s h1
  have h3 := Nat.div_add_mod (I + s - 1) s
  have h4 := Nat.mod_lt (I + s - 1) hs
  have h5 : s * ((I + s - 1) / s) = (I + s - 1) / s * s := Nat.mul_comm _ _
  omega

theorem first_crashcheck_pass_not_before (s I j : Nat) (hs : 0 < s) (hj : 0 < j)
    (hlt : j < first_crashcheck_pass s I) : j * s < I := by
  have h1 : j < (I + s - 1) / s := by
    unfold first_crashcheck_pass at hlt
    rcases Nat.lt_or_ge j ((I + s - 1) / s) with h | h
    · exact h
    · have : max 1 ((I + s - 1) / s) ≤ j := max_le hj h
      omega
  have h2 : (j + 1) * s ≤ (I + s - 1) / s * s := Nat.mul_le_mul_right s h1
  have h3 := Nat.div_mul_le_self (I + s - 1) s
  have h4 : (j + 1) * s = j * s + s := Nat.succ_mul j s
  omega


theorem not_exec_mem_poll_events (cfg : Settings) (cmd : Str) :
    ∀ k, Event.exec cmd ∉ poll_events cfg k := by
  intro k
  induction k with
  | zero => simp [poll_events]
  | succ k ih => simp [poll_events, ih]

theorem polled_zero {W : Type} (env : Env W) (cfg : Settings) (m : Monitor W)
    (hstart : m.seconds_elapsed_since_crashcheck = 0) : polled env cfg 0 m = m := by
  cases m with
  | mk sys job_id eqw_resubs elapsed out =>
    cases sys
    simp only at hstart
    simp [polled, poll_world, poll_events, hstart]

/-- C17: let the sleep time `s` be positive, the elapsed counter be 0, and write `N` for
`max(1, ceil(I / s))`. If no marker exists in the worlds of the first `N` passes and `N * s`
is below `2 ^ 32`, then each of the first `N - 1` passes of the monitoring loop only checks
the markers and sleeps, and the `N`-th pass, after its sleep, enters the crash check with
the elapsed counter at `s * N`; the calls made up to that point are the marker checks and
sleeps of these `N` passes, so no command has been run before the crash check starts. -/
theorem C17_first_crashcheck_pass {W : Type} (env : Env W) (cfg : Settings) (m : Monitor W)
    (hs : 0 < cfg.sleep_in_seconds)
    (hstart : m.seconds_elapsed_since_crashcheck = 0)
    (hnomark : ∀ k,
      k < first_crashcheck_pass cfg.sleep_in_seconds cfg.crashcheck_interval_in_seconds →
      env.file_exists ( cfg.logging_prefix ++ ".success".toList)
          (poll_world env cfg k m.sys.world) = false
        ∧ env.file_exists ( cfg.logging_prefix ++ ".fail".toList)
          (poll_world env cfg k m.sys.world) = false)
    (hwrap : first_crashcheck_pass cfg.sleep_in_seconds cfg.crashcheck_interval_in_seconds
      * cfg.sleep_in_seconds < UINT_SIZE) :
    (∀ k, k < first_crashcheck_pass cfg.sleep_in_seconds cfg.crashcheck_interval_in_seconds →
      monitor_passes env cfg k m = .ok (polled env cfg k m))
    ∧ monitor_passes env cfg
        (first_crashcheck_pass cfg.sleep_in_seconds cfg.crashcheck_interval_in_seconds) m
      = crashcheck env cfg (polled env cfg
          (first_crashcheck_pass cfg.sleep_in_seconds cfg.crashcheck_interval_in_seconds) m)
    ∧ (polled env cfg
          (first_crashcheck_pass cfg.sleep_in_seconds cfg.crashcheck_interval_in_seconds)
          m).seconds_elapsed_since_crashcheck
      = cfg.sleep_in_seconds
          * first_crashcheck_pass cfg.sleep_in_seconds cfg.crashcheck_interval_in_seconds
    ∧ (polled env cfg
          (first_crashcheck_pass cfg.sleep_in_seconds cfg.crashcheck_interval_in_seconds)
          m).sys.trace
      = m.sys.trace ++ poll_events cfg
          (first_crashcheck_pass cfg.sleep_in_seconds cfg.crashcheck_interval_in_seconds)
    ∧ ∀ cmd, Event.exec cmd ∉ poll_events cfg
        (first_crashcheck_pass cfg.sleep_in_seconds cfg.crashcheck_interval_in_seconds) := by
  have hquiet : ∀ k,
      k < first_crashcheck_pass cfg.sleep_in_seconds cfg.crashcheck_interval_in_seconds →
      monitor_passes env cfg k m = .ok (polled env cfg k m) := by
    intro k
    induction k with
    | zero =>
      intro _
      rw [polled_zero env cfg m hstart]
      rfl
    | succ k ih =>
      intro hk
      have hk1 : k < first_crashcheck_pass cfg.sleep_in_seconds
          cfg.crashcheck_interval_in_seconds := Nat.lt_of_succ_lt hk
      have hw : (k + 1) * cfg.sleep_in_seconds < UINT_SIZE :=
        Nat.lt_of_le_of_lt (Nat.mul_le_mul_right _ (Nat.le_of_lt hk)) hwrap
      have hlt := first_crashcheck_pass_not_before cfg.sleep_in_seconds
        cfg.crashcheck_interval_in_seconds (k + 1) hs (Nat.succ_pos k) hk
      rw [monitor_passes_succ, ih hk1]
      simp only []
      rw [monitor_body_polled env cfg m k (hnomark k hk1).1 (hnomark k hk1).2 hw]
      simp [Nat.not_le.mpr hlt]
  refine ⟨hquiet, ?_, ?_, rfl, fun cmd => not_exec_mem_poll_events cfg cmd _⟩
  · have hpos : 0 < first_crashcheck_pass cfg.sleep_in_seconds
        cfg.crashcheck_interval_in_seconds := by
      unfold first_crashcheck_pass
      exact Nat.lt_of_lt_of_le Nat.zero_lt_one (le_max_left _ _)
    obtain ⟨k, hk⟩ := Nat.exists_eq_succ_of_ne_zero (Nat.pos_iff_ne_zero.mp hpos)
    have hk1 : k < first_crashcheck_pass cfg.sleep_in_seconds
        cfg.crashcheck_interval_in_seconds := by omega
    have hreach := first_crashcheck_pass_reaches cfg.sleep_in_seconds
      cfg.crashcheck_interval_in_seconds hs
    rw [hk] at hwrap hreach ⊢
    rw [monitor_passes_succ, hquiet k hk1]
    simp only []
    rw [monitor_body_polled env cfg m k (hnomark k hk1).1 (hnomark k hk1).2 hwrap]
    simp only [Nat.succ_eq_add_one] at hreach
    simp [hreach]
  · simp [polled, Nat.mul_comm]


/-- Sleep time 10 and interval 25: the third pass is the first to enter the crash check, with
the elapsed counter at 30. -/
theorem C17_first_crashcheck_pass_witness :
    first_crashcheck_pass 10 25 = 3
    ∧ monitor_passes scripted quick_settings (first_crashcheck_pass 10 25) (demo_monitor [] 0 0)
      = crashcheck scripted quick_settings
          (polled scripted quick_settings (first_crashcheck_pass 10 25) (demo_monitor [] 0 0))
    ∧ (polled scripted quick_settings (first_crashcheck_pass 10 25)
          (demo_monitor [] 0 0)).seconds_elapsed_since_crashcheck
      = 10 * first_crashcheck_pass 10 25 :=
  ⟨by decide,
    (C17_first_crashcheck_pass scripted quick_settings (demo_monitor [] 0 0) (by decide) rfl
      (fun _ _ => ⟨rfl, rfl⟩) (by decide)).2.1,
    (C17_first_crashcheck_pass scripted quick_settings (demo_monitor [] 0 0) (by decide) rfl
      (fun _ _ => ⟨rfl, rfl⟩) (by decide)).2.2.1⟩


/-! ## The counter of resubmissions for error states -/

theorem resubmit_eqw_counter {W : Type} (env : Env W) (cfg : Settings) (m : Monitor W) :
    (resubmit_eqw env cfg m).monitor.eqw_resubs = (m.eqw_resubs + 1) % UINT_SIZE := by
  simp only [resubmit_eqw, exec]
  rcases env.popen cfg.sbatch_command m.sys.world with ⟨_ | ⟨status, out⟩, w2⟩
  · simp [Flow.monitor]
  · by_cases hst : status = 0
    · subst hst
      cases hid : get_job_id out <;> simp [Flow.monitor, hid]
    · simp [Flow.monitor, hst]

theorem resubmit_crashed_counter {W : Type} (env : Env W) (cfg : Settings) (m : Monitor W) :
    (resubmit_crashed env cfg m).monitor.eqw_resubs = m.eqw_resubs := by
  simp only [resubmit_crashed, exec]
  rcases env.popen cfg.sbatch_command m.sys.world with ⟨_ | ⟨status, out⟩, w2⟩
  · simp [Flow.monitor]
  · by_cases hst : status = 0
    · subst hst
      cases hid : get_job_id out <;> simp [Flow.monitor, hid]
    · simp [Flow.monitor, hst]

/-- In one pass of the crash check the counter either stays, or the pass is a resubmission
for an error state: the listing showed the job with the error flag, `scancel` returned 0, the
counter was below the limit, and the pass is `resubmit_eqw`, which adds one. -/
theorem crashcheck_body_counter {W : Type} (env : Env W) (cfg : Settings) (m : Monitor W) :
    (crashcheck_body env cfg m).monitor.eqw_resubs = m.eqw_resubs
    ∨ (m.eqw_resubs < cfg.eqw_resub_limit
      ∧ (crashcheck_body env cfg m).monitor.eqw_resubs = (m.eqw_resubs + 1) % UINT_SIZE
      ∧ ∃ (log : Str) (w1 w2 : W) (ids : JobMap),
          env.popen "sjobs".toList m.sys.world = (some (0, log), w1)
          ∧ get_job_ids log = some (.ok ids)
          ∧ ids.find m.job_id = some false
          ∧ env.system ("scancel ".toList ++ to_string m.job_id) w1 = (0, w2)
          ∧ crashcheck_body env cfg m = resubmit_eqw env cfg
              { m with sys := ⟨w2, m.sys.trace ++ [.exec "sjobs".toList,
                  .system ("scancel ".toList ++ to_string m.job_id)]⟩ }) := by
  rcases hp : env.popen "sjobs".toList m.sys.world with ⟨_ | ⟨status, log⟩, w1⟩
  · left
    simp only [crashcheck_body, exec, hp, Flow.monitor]
  · by_cases hst : status = 0
    · subst hst
      rcases hg : get_job_ids log with _ | (e | ids)
      · left
        simp only [crashcheck_body, exec, hp, hg, Flow.monitor]
        simp
      · left
        simp only [crashcheck_body, exec, hp, hg, Flow.monitor]
        simp
      · rcases hf : ids.find m.job_id with _ | (_ | _)
        · left
          rcases hm1 : marker_check_missing env cfg ⟨w1, m.sys.trace ++ [.exec "sjobs".toList]⟩
            with ⟨_ | code, y1⟩
          · rcases hm2 : marker_check_waited env cfg (do_sleep env 120 y1) with ⟨_ | code, y2⟩
            · simp only [crashcheck_body, exec, hp, hg, hf, hm1, hm2, ne_eq, not_true_eq_false,
                if_false, resubmit_crashed_counter]
            · simp only [crashcheck_body, exec, hp, hg, hf, hm1, hm2, ne_eq, not_true_eq_false,
                if_false, Flow.monitor]
          · simp only [crashcheck_body, exec, hp, hg, hf, hm1, ne_eq, not_true_eq_false,
              if_false, Flow.monitor]
        · rcases hk : env.system ("scancel ".toList ++ to_string m.job_id) w1 with ⟨st, w2⟩
          by_cases hst : st = 0
          · subst hst
            by_cases hb : m.eqw_resubs ≥ cfg.eqw_resub_limit
            · left
              simp only [crashcheck_body, exec, hp, hg, hf, kill_job, hk, ne_eq,
                not_true_eq_false, if_false, hb, if_true, Flow.monitor]
            · right
              have hbody : crashcheck_body env cfg m = resubmit_eqw env cfg
                  { m with sys := ⟨w2, m.sys.trace ++ [.exec "sjobs".toList,
                      .system ("scancel ".toList ++ to_string m.job_id)]⟩ } := by
                simp only [crashcheck_body, exec, hp, hg, hf, kill_job, hk, ne_eq,
                  not_true_eq_false, if_false, hb]
                simp
              refine ⟨Nat.not_le.mp hb, ?_, log, w1, w2, ids, rfl, hg, hf, hk, hbody⟩
              rw [hbody, resubmit_eqw_counter]
          · left
            simp only [crashcheck_body, exec, hp, hg, hf, kill_job, hk, ne_eq, hst,
              not_false_eq_true, if_true, not_true_eq_false, if_false, Flow.monitor]
        · left
          simp only [crashcheck_body, exec, hp, hg, hf, ne_eq, not_true_eq_false, if_false,
            Flow.monitor]
    · left
      simp only [crashcheck_body, exec, hp, ne_eq, hst, not_false_eq_true, if_true,
        Flow.monitor]


theorem reachable_crashcheck_for {W : Type} (env : Env W) (cfg : Settings) (m0 : Monitor W) :
    ∀ (k n : Nat) (m : Monitor W), Reachable env cfg m0 m →
      match crashcheck_for env cfg k n m with
      | .ok (_, m1) => Reachable env cfg m0 m1
      | .error (_, m1) => Reachable env cfg m0 m1 := by
  intro k
  induction k with
  | zero => intro n m h; exact h
  | succ k ih =>
    intro n m h
    have hpass := Reachable.pass m h
    rw [crashcheck_for]
    cases hb : crashcheck_body env cfg m with
    | next m1 =>
      rw [hb] at hpass
      exact ih (n + 1) m1 hpass
    | brk m1 =>
      rw [hb] at hpass
      exact hpass
    | stop o m1 =>
      rw [hb] at hpass
      exact hpass

theorem reachable_crashcheck {W : Type} (env : Env W) (cfg : Settings) (m0 m : Monitor W)
    (h : Reachable env cfg m0 m) :
    Reachable env cfg m0 (final_monitor (crashcheck env cfg m)) := by
  have hfor := reachable_crashcheck_for env cfg m0 cfg.crashcheck_attempts 0 m h
  rw [crashcheck]
  rcases hc : crashcheck_for env cfg cfg.crashcheck_attempts 0 m with ⟨o, m1⟩ | ⟨n, m1⟩
  · rw [hc] at hfor
    exact hfor
  · rw [hc] at hfor
    by_cases hn : n ≥ cfg.crashcheck_attempts
    · simpa [final_monitor, hn] using hfor
    · simpa [final_monitor, hn] using hfor

theorem reachable_monitor_body {W : Type} (env : Env W) (cfg : Settings) (m0 m : Monitor W)
    (h : Reachable env cfg m0 m) :
    Reachable env cfg m0 (final_monitor (monitor_body env cfg m)) := by
  have hc := Reachable.checked m h
  have hs := Reachable.slept m h
  rw [monitor_body]
  rcases hm : marker_check_poll env cfg m.sys with ⟨_ | code, y⟩
  · rw [hm] at hs
    simp only at hs ⊢
    split
    · exact reachable_crashcheck env cfg m0 _ hs
    · exact hs
  · rw [hm] at hc
    exact hc

theorem reachable_monitor_passes {W : Type} (env : Env W) (cfg : Settings) (m0 : Monitor W) :
    ∀ (k : Nat) (m : Monitor W), Reachable env cfg m0 m →
      Reachable env cfg m0 (final_monitor (monitor_passes env cfg k m)) := by
  intro k
  induction k with
  | zero => intro m h; exact h
  | succ k ih =>
    intro m h
    have hb := reachable_monitor_body env cfg m0 m h
    rw [monitor_passes]
    cases hm : monitor_body env cfg m with
    | error r =>
      rw [hm] at hb
      exact hb
    | ok m1 =>
      rw [hm] at hb
      exact ih m1 hb

theorem reachable_monitor_loop {W : Type} (env : Env W) (cfg : Settings) (m0 : Monitor W) :
    ∀ (fuel : Nat) (m : Monitor W) (r : Outcome × Monitor W), Reachable env cfg m0 m →
      monitor_loop env cfg fuel m = some r → Reachable env cfg m0 r.2 := by
  intro fuel
  induction fuel with
  | zero => intro m r _ hr; simp [monitor_loop] at hr
  | succ fuel ih =>
    intro m r h hr
    have hb := reachable_monitor_body env cfg m0 m h
    rw [monitor_loop] at hr
    cases hm : monitor_body env cfg m with
    | error r1 =>
      rw [hm] at hb hr
      simp only [Option.some.injEq] at hr
      subst hr
      exact hb
    | ok m1 =>
      rw [hm] at hb hr
      exact ih m1 r hb hr

/-- The counter stays within the limit in every reachable state, if it starts within it. -/
theorem reachable_counter_le {W : Type} (env : Env W) (cfg : Settings) (m0 : Monitor W)
    (h0 : m0.eqw_resubs ≤ cfg.eqw_resub_limit) :
    ∀ m, Reachable env cfg m0 m → m.eqw_resubs ≤ cfg.eqw_resub_limit := by
  intro m h
  induction h with
  | start => exact h0
  | checked m _ ih => exact ih
  | slept m _ ih => exact ih
  | pass m _ ih =>
    rcases crashcheck_body_counter env cfg m with hsame | ⟨hlt, hnew, -⟩
    · rw [hsame]; exact ih
    · rw [hnew]
      exact Nat.le_trans (Nat.mod_le _ _) hlt

/-- The function `startup` in terms of `purge_markers` and `startup_settings`. -/
theorem startup_eq {W : Type} (env : Env W) (ap : cargs) (argc : Nat) (w : W) :
    startup env ap argc w
      = if ap.help || argc = 1 then .error (.exit 1, ⟨w, []⟩)
        else
          match derive_job_name ap.job_name ap.output_prefix with
          | .error e => .error (.uncaught e, ⟨w, []⟩)
          | .ok job_name =>
            match exec env (startup_settings ap job_name).sbatch_command
                (purge_markers env ap.output_prefix ⟨w, []⟩) with
            | (.error e, _, y3) => .error (.uncaught e, y3)
            | (.ok status, sbatch_screen_output, y3) =>
              if status ≠ 0 then
                .error (.uncaught (.runtime_error
                  ("unable to execute sbatch command: \"".toList
                    ++ (startup_settings ap job_name).sbatch_command ++ "\"".toList)), y3)
              else
                match get_job_id sbatch_screen_output with
                | .error e => .error (.uncaught e, y3)
                | .ok job_id =>
                  .ok (startup_settings ap job_name,
                    { sys := do_sleep env (1 + (env.uid y3.world).1 % 30)
                        ⟨(env.uid y3.world).2, y3.trace⟩
                      job_id := job_id
                      eqw_resubs := 0
                      seconds_elapsed_since_crashcheck := 0
                      sbatch_screen_output := sbatch_screen_output }) := rfl

/-- What it takes for `startup` to reach the monitoring loop: the job name is derived, the
submission command is run in the world left by `purge_markers` and returns 0, and a job id is
read from its output. -/
theorem startup_ok {W : Type} (env : Env W) (ap : cargs) (argc : Nat) (w : W)
    (cfg : Settings) (m0 : Monitor W) (h : startup env ap argc w = .ok (cfg, m0)) :
    ∃ (job_name out : Str) (y3 : Sys W) (job_id : Nat),
      derive_job_name ap.job_name ap.output_prefix = .ok job_name
      ∧ cfg = startup_settings ap job_name
      ∧ exec env cfg.sbatch_command (purge_markers env ap.output_prefix ⟨w, []⟩)
          = (.ok 0, out, y3)
      ∧ get_job_id out = .ok job_id
      ∧ m0 = { sys := do_sleep env (1 + (env.uid y3.world).1 % 30)
                 ⟨(env.uid y3.world).2, y3.trace⟩
               job_id := job_id
               eqw_resubs := 0
               seconds_elapsed_since_crashcheck := 0
               sbatch_screen_output := out } := by
  rw [startup_eq] at h
  by_cases hh : (ap.help || decide (argc = 1)) = true
  · simp [hh] at h
  · simp only [hh, Bool.false_eq_true, if_false] at h
    cases hj : derive_job_name ap.job_name ap.output_prefix with
    | error e => simp [hj] at h
    | ok job_name =>
      simp only [hj] at h
      rcases he : exec env (startup_settings ap job_name).sbatch_command
        (purge_markers env ap.output_prefix ⟨w, []⟩) with ⟨_ | status, out, y3⟩
      · simp [he] at h
      · simp only [he] at h
        by_cases hst : status = 0
        · subst hst
          simp only [ne_eq, not_true_eq_false, if_false] at h
          cases hid : get_job_id out with
          | error e => simp [hid] at h
          | ok job_id =>
            simp only [hid, Except.ok.injEq, Prod.mk.injEq] at h
            obtain ⟨hcfg, hm⟩ := h
            subst hcfg
            exact ⟨job_name, out, y3, job_id, rfl, rfl, he, hid, hm.symm⟩
        · simp [hst] at h


/-- C12: let `startup` enter the monitoring loop with settings `cfg` and monitor `m0`, the
limit on the command line being an `unsigned`. Then the counter of resubmissions for error
states is 0 in `m0`; it is at most the limit in every reachable state; the states that the
monitoring loop is in after any number of passes, and the one it ends in, are reachable; and
a pass of the crash check from a reachable state either leaves the counter as it is or adds
exactly one to it, the latter only when the listing showed the current job with the error
flag, `scancel` returned 0, the counter was below the limit, and the pass is the resubmission
for an error state. (The other steps between reachable states, a marker check and a sleep
of the monitoring loop, do not touch the counter.) -/
theorem C12_eqw_resubs_bounded {W : Type} (env : Env W) (ap : cargs) (argc : Nat) (w : W)
    (cfg : Settings) (m0 : Monitor W) (hstart : startup env ap argc w = .ok (cfg, m0))
    (hlimit : ap.eqw_resub_limit < UINT_SIZE) :
    m0.eqw_resubs = 0
    ∧ (∀ m, Reachable env cfg m0 m → m.eqw_resubs ≤ cfg.eqw_resub_limit)
    ∧ (∀ k, Reachable env cfg m0 (final_monitor (monitor_passes env cfg k m0)))
    ∧ (∀ fuel r, monitor_loop env cfg fuel m0 = some r → Reachable env cfg m0 r.2)
    ∧ (∀ m, Reachable env cfg m0 m →
        (crashcheck_body env cfg m).monitor.eqw_resubs = m.eqw_resubs
        ∨ (m.eqw_resubs < cfg.eqw_resub_limit
          ∧ (crashcheck_body env cfg m).monitor.eqw_resubs = m.eqw_resubs + 1
          ∧ ∃ (log : Str) (w1 w2 : W) (ids : JobMap),
              env.popen "sjobs".toList m.sys.world = (some (0, log), w1)
              ∧ get_job_ids log = some (.ok ids)
              ∧ ids.find m.job_id = some false
              ∧ env.system ("scancel ".toList ++ to_string m.job_id) w1 = (0, w2)
              ∧ crashcheck_body env cfg m = resubmit_eqw env cfg
                  { m with sys := ⟨w2, m.sys.trace ++ [.exec "sjobs".toList,
                      .system ("scancel ".toList ++ to_string m.job_id)]⟩ })) := by
  obtain ⟨job_name, out, y3, job_id, -, hcfg, -, -, hm0⟩ :=
    startup_ok env ap argc w cfg m0 hstart
  have h0 : m0.eqw_resubs = 0 := by rw [hm0]
  have hlim : cfg.eqw_resub_limit < UINT_SIZE := by rw [hcfg]; exact hlimit
  have hinv := reachable_counter_le env cfg m0 (by rw [h0]; exact Nat.zero_le _)
  refine ⟨h0, hinv, fun k => reachable_monitor_passes env cfg m0 k m0 Reachable.start,
    fun fuel r hr => reachable_monitor_loop env cfg m0 fuel m0 r Reachable.start hr, ?_⟩
  intro m hm
  rcases crashcheck_body_counter env cfg m with hsame | ⟨hlt, hnew, hpath⟩
  · exact Or.inl hsame
  · refine Or.inr ⟨hlt, ?_, hpath⟩
    rw [hnew]
    exact Nat.mod_eq_of_lt (by omega)

/-- A run with the demo command line in the scripted world: after 5 passes the counter is at
most 3. -/
theorem C12_eqw_resubs_bounded_witness :
    (final_monitor (monitor_passes scripted (startup_settings demo_cargs "alignment".toList) 5
        { sys := ⟨[], [.file_exists "out/job.success".toList, .file_exists "out/job.fail".toList,
            .exec (startup_settings demo_cargs "alignment".toList).sbatch_command, .sleep 1]⟩
          job_id := 42
          eqw_resubs := 0
          seconds_elapsed_since_crashcheck := 0
          sbatch_screen_output := "42\n".toList })).eqw_resubs ≤ 3 :=
  (C12_eqw_resubs_bounded scripted demo_cargs 3 [(0, "42\n".toList)]
    (startup_settings demo_cargs "alignment".toList)
    { sys := ⟨[], [.file_exists "out/job.success".toList, .file_exists "out/job.fail".toList,
        .exec (startup_settings demo_cargs "alignment".toList).sbatch_command, .sleep 1]⟩
      job_id := 42
      eqw_resubs := 0
      seconds_elapsed_since_crashcheck := 0
      sbatch_screen_output := "42\n".toList }
    (by rfl) (by decide)).2.1 _
    ((C12_eqw_resubs_bounded scripted demo_cargs 3 [(0, "42\n".toList)]
      (startup_settings demo_cargs "alignment".toList)
      { sys := ⟨[], [.file_exists "out/job.success".toList, .file_exists "out/job.fail".toList,
          .exec (startup_settings demo_cargs "alignment".toList).sbatch_command, .sleep 1]⟩
        job_id := 42
        eqw_resubs := 0
        seconds_elapsed_since_crashcheck := 0
        sbatch_screen_output := "42\n".toList }
      (by rfl) (by decide)).2.2.1 5)


/-! ## The markers at startup -/

theorem success_ne_fail ( logging_prefix : Str) :
    logging_prefix ++ ".success".toList ≠ logging_prefix ++ ".fail".toList := by
  intro h
  exact absurd (List.append_cancel_left h) (by decide)

/-- After `purge_markers` neither marker exists, when `remove` deletes the file it is given and
no other. -/
theorem purge_markers_clears {W : Type} (env : Env W) ( logging_prefix : Str) (y0 : Sys W)
    (hself : ∀ p w, env.file_exists p (env.remove p w) = false)
    (hother : ∀ p q w, p ≠ q → env.file_exists q (env.remove p w) = env.file_exists q w) :
    env.file_exists ( logging_prefix ++ ".success".toList)
        (purge_markers env logging_prefix y0).world = false
    ∧ env.file_exists ( logging_prefix ++ ".fail".toList)
        (purge_markers env logging_prefix y0).world = false := by
  have hne := success_ne_fail logging_prefix
  rcases hs : env.file_exists ( logging_prefix ++ ".success".toList) y0.world
  · rcases hf : env.file_exists ( logging_prefix ++ ".fail".toList) y0.world
    · simp only [purge_markers, fs_exists, hs, hf, and_self]
    · have h1 : env.file_exists ( logging_prefix ++ ".success".toList)
          (env.remove ( logging_prefix ++ ".fail".toList) y0.world) = false := by
        rw [hother _ _ _ (Ne.symm hne)]; exact hs
      simp only [purge_markers, fs_exists, fs_remove, hs, hf, h1, hself, and_self]
  · have hf1 : env.file_exists ( logging_prefix ++ ".fail".toList)
        (env.remove ( logging_prefix ++ ".success".toList) y0.world)
        = env.file_exists ( logging_prefix ++ ".fail".toList) y0.world := hother _ _ _ hne
    rcases hf : env.file_exists ( logging_prefix ++ ".fail".toList) y0.world
    · rw [hf] at hf1
      simp only [purge_markers, fs_exists, fs_remove, hs, hf1, hself, and_self]
    · rw [hf] at hf1
      have h1 : env.file_exists ( logging_prefix ++ ".success".toList)
          (env.remove ( logging_prefix ++ ".fail".toList)
            (env.remove ( logging_prefix ++ ".success".toList) y0.world)) = false := by
        rw [hother _ _ _ (Ne.symm hne)]; exact hself _ _
      simp only [purge_markers, fs_exists, fs_remove, hs, hf1, h1, hself, and_self]

/-- The calls of `purge_markers`: each marker is looked for, and removed when it exists. -/
theorem purge_markers_trace {W : Type} (env : Env W) ( logging_prefix : Str) (y0 : Sys W)
    (hother : ∀ p q w, p ≠ q → env.file_exists q (env.remove p w) = env.file_exists q w) :
    (purge_markers env logging_prefix y0).trace
      = y0.trace
        ++ [.file_exists ( logging_prefix ++ ".success".toList)]
        ++ (if env.file_exists ( logging_prefix ++ ".success".toList) y0.world
            then [.remove ( logging_prefix ++ ".success".toList)] else [])
        ++ [.file_exists ( logging_prefix ++ ".fail".toList)]
        ++ (if env.file_exists ( logging_prefix ++ ".fail".toList) y0.world
            then [.remove ( logging_prefix ++ ".fail".toList)] else []) := by
  have hne := success_ne_fail logging_prefix
  rcases hs : env.file_exists ( logging_prefix ++ ".success".toList) y0.world
  · rcases hf : env.file_exists ( logging_prefix ++ ".fail".toList) y0.world
    · simp only [purge_markers, fs_exists, hs, hf]
      simp
    · simp only [purge_markers, fs_exists, fs_remove, hs, hf]
      simp
  · have hf1 : env.file_exists ( logging_prefix ++ ".fail".toList)
        (env.remove ( logging_prefix ++ ".success".toList) y0.world)
        = env.file_exists ( logging_prefix ++ ".fail".toList) y0.world := hother _ _ _ hne
    rcases hf : env.file_exists ( logging_prefix ++ ".fail".toList) y0.world
    · rw [hf] at hf1
      simp only [purge_markers, fs_exists, fs_remove, hs, hf1]
      simp
    · rw [hf] at hf1
      simp only [purge_markers, fs_exists, fs_remove, hs, hf1]
      simp

theorem removals_append_single (tr : List Event) (e : Event) (h : e.is_remove = false) :
    removals (tr ++ [e]) = removals tr := by
  simp [removals, List.filter_append, h]

theorem marker_check_poll_removals {W : Type} (env : Env W) (cfg : Settings) (y : Sys W) :
    removals (marker_check_poll env cfg y).2.trace = removals y.trace := by
  rcases hs : env.file_exists ( cfg.logging_prefix ++ ".success".toList) y.world <;>
    rcases hf : env.file_exists ( cfg.logging_prefix ++ ".fail".toList) y.world <;>
    simp only [marker_check_poll, fs_exists, hs, hf] <;>
    simp [removals, List.filter_append, Event.is_remove]

theorem marker_check_missing_removals {W : Type} (env : Env W) (cfg : Settings) (y : Sys W) :
    removals (marker_check_missing env cfg y).2.trace = removals y.trace := by
  rcases hs : env.file_exists ( cfg.logging_prefix ++ ".success".toList) y.world <;>
    rcases hf : env.file_exists ( cfg.logging_prefix ++ ".fail".toList) y.world <;>
    simp only [marker_check_missing, fs_exists, hs, hf] <;>
    simp [removals, List.filter_append, Event.is_remove]

theorem marker_check_waited_removals {W : Type} (env : Env W) (cfg : Settings) (y : Sys W) :
    removals (marker_check_waited env cfg y).2.trace = removals y.trace := by
  rcases hs : env.file_exists ( cfg.logging_prefix ++ ".success".toList) y.world <;>
    rcases hf : env.file_exists ( cfg.logging_prefix ++ ".fail".toList) y.world <;>
    simp only [marker_check_waited, fs_exists, hs, hf] <;>
    simp [removals, List.filter_append, Event.is_remove]

theorem resubmit_crashed_trace {W : Type} (env : Env W) (cfg : Settings) (m : Monitor W) :
    (resubmit_crashed env cfg m).monitor.sys.trace
      = m.sys.trace ++ [.exec cfg.sbatch_command] := by
  simp only [resubmit_crashed, exec]
  rcases env.popen cfg.sbatch_command m.sys.world with ⟨_ | ⟨status, out⟩, w2⟩
  · simp [Flow.monitor]
  · by_cases hst : status = 0
    · subst hst
      cases hid : get_job_id out <;> simp [Flow.monitor, hid]
    · simp [Flow.monitor, hst]


theorem removals_exec (tr : List Event) (cmd : Str) :
    removals (tr ++ [.exec cmd]) = removals tr := removals_append_single _ _ rfl

theorem removals_system (tr : List Event) (cmd : Str) :
    removals (tr ++ [.system cmd]) = removals tr := removals_append_single _ _ rfl

theorem removals_sleep (tr : List Event) (n : Nat) :
    removals (tr ++ [.sleep n]) = removals tr := removals_append_single _ _ rfl

/-- A pass of the crash check makes no removal. -/
theorem crashcheck_body_removals {W : Type} (env : Env W) (cfg : Settings) (m : Monitor W) :
    removals (crashcheck_body env cfg m).monitor.sys.trace = removals m.sys.trace := by
  have hx : ∀ cmd, removals (m.sys.trace ++ [Event.exec cmd]) = removals m.sys.trace :=
    fun cmd => removals_exec _ _
  rcases hp : env.popen "sjobs".toList m.sys.world with ⟨_ | ⟨status, log⟩, w1⟩
  · simp only [crashcheck_body, exec, hp, Flow.monitor, hx]
  · by_cases hst : status = 0
    · subst hst
      rcases hg : get_job_ids log with _ | (e | ids)
      · simp only [crashcheck_body, exec, hp, hg, Flow.monitor, ne_eq, not_true_eq_false,
          if_false, hx]
      · simp only [crashcheck_body, exec, hp, hg, Flow.monitor, ne_eq, not_true_eq_false,
          if_false, hx]
      · rcases hf : ids.find m.job_id with _ | (_ | _)
        · have h1 := marker_check_missing_removals env cfg
            ⟨w1, m.sys.trace ++ [.exec "sjobs".toList]⟩
          rcases hm1 : marker_check_missing env cfg ⟨w1, m.sys.trace ++ [.exec "sjobs".toList]⟩
            with ⟨_ | code, y1⟩
          · rw [hm1] at h1
            have h2 := marker_check_waited_removals env cfg (do_sleep env 120 y1)
            have h3 : removals (do_sleep env 120 y1).trace = removals y1.trace :=
              removals_sleep _ _
            rcases hm2 : marker_check_waited env cfg (do_sleep env 120 y1) with ⟨_ | code, y2⟩
            · rw [hm2] at h2
              simp only [crashcheck_body, exec, hp, hg, hf, hm1, hm2, ne_eq, not_true_eq_false,
                if_false, resubmit_crashed_trace]
              rw [removals_exec]
              simp only at h1 h2
              rw [h2, h3, h1, hx]
            · rw [hm2] at h2
              simp only [crashcheck_body, exec, hp, hg, hf, hm1, hm2, ne_eq, not_true_eq_false,
                if_false, Flow.monitor]
              simp only at h1 h2
              rw [h2, h3, h1, hx]
          · rw [hm1] at h1
            simp only [crashcheck_body, exec, hp, hg, hf, hm1, ne_eq, not_true_eq_false,
              if_false, Flow.monitor]
            simp only at h1
            rw [h1, hx]
        · rcases hk : env.system ("scancel ".toList ++ to_string m.job_id) w1 with ⟨st, w2⟩
          have hxs : removals (m.sys.trace ++ [.exec "sjobs".toList]
              ++ [.system ("scancel ".toList ++ to_string m.job_id)]) = removals m.sys.trace := by
            rw [removals_system, hx]
          by_cases hst : st = 0
          · subst hst
            by_cases hb : m.eqw_resubs ≥ cfg.eqw_resub_limit
            · simp only [crashcheck_body, exec, hp, hg, hf, kill_job, hk, ne_eq,
                not_true_eq_false, if_false, hb, if_true, Flow.monitor, hxs]
            · simp only [crashcheck_body, exec, hp, hg, hf, kill_job, hk, ne_eq,
                not_true_eq_false, if_false, hb, resubmit_eqw_trace]
              rw [removals_exec, hxs]
          · simp only [crashcheck_body, exec, hp, hg, hf, kill_job, hk, ne_eq, hst,
              not_false_eq_true, if_true, not_true_eq_false, if_false, Flow.monitor, hxs]
        · simp only [crashcheck_body, exec, hp, hg, hf, ne_eq, not_true_eq_false, if_false,
            Flow.monitor, hx]
    · simp only [crashcheck_body, exec, hp, ne_eq, hst, not_false_eq_true, if_true,
        Flow.monitor, do_sleep]
      rw [removals_sleep, hx]

/-- No reachable state has a removal in its trace that the starting state has not. -/
theorem reachable_removals {W : Type} (env : Env W) (cfg : Settings) (m0 : Monitor W) :
    ∀ m, Reachable env cfg m0 m → removals m.sys.trace = removals m0.sys.trace := by
  intro m h
  induction h with
  | start => rfl
  | checked m _ ih =>
    simp only []
    rw [marker_check_poll_removals, ih]
  | slept m _ ih =>
    simp only [do_sleep]
    rw [removals_sleep, marker_check_poll_removals, ih]
  | pass m _ ih => rw [crashcheck_body_removals, ih]


theorem exec_trace {W : Type} (env : Env W) (cmd : Str) (y : Sys W) :
    (exec env cmd y).2.2.trace = y.trace ++ [.exec cmd] := by
  simp only [exec]
  rcases env.popen cmd y.world with ⟨_ | ⟨status, out⟩, w⟩ <;> rfl

/-- C15: let `remove` delete the file it is given and no other. Then, whichever of the two
markers exist at the start: (1) in the world left by the purge of lines 64-69 neither marker
exists; (2) the calls of the purge are the two marker checks, each followed by the removal
of the marker when it exists; (3) when `startup` ends before the monitoring loop, it has
made no call at all, or the calls of the purge followed by the submission command; (4) when
`startup` reaches the monitoring loop, the submission command has been run in the world left
by the purge, the calls made are those of the purge, the submission command and a sleep, and
no state reachable from there has a removal in its trace that the purge has not made; the
states of the monitoring loop after any number of passes are among these. -/
theorem C15_markers_purged_before_submission {W : Type} (env : Env W) (ap : cargs)
    (argc : Nat) (w : W)
    (hself : ∀ p w, env.file_exists p (env.remove p w) = false)
    (hother : ∀ p q w, p ≠ q → env.file_exists q (env.remove p w) = env.file_exists q w) :
    (env.file_exists ( ap.output_prefix ++ ".success".toList)
        (purge_markers env ap.output_prefix ⟨w, []⟩).world = false
      ∧ env.file_exists ( ap.output_prefix ++ ".fail".toList)
        (purge_markers env ap.output_prefix ⟨w, []⟩).world = false)
    ∧ (purge_markers env ap.output_prefix ⟨w, []⟩).trace
        = [] ++ [.file_exists ( ap.output_prefix ++ ".success".toList)]
          ++ (if env.file_exists ( ap.output_prefix ++ ".success".toList) w
              then [.remove ( ap.output_prefix ++ ".success".toList)] else [])
          ++ [.file_exists ( ap.output_prefix ++ ".fail".toList)]
          ++ (if env.file_exists ( ap.output_prefix ++ ".fail".toList) w
              then [.remove ( ap.output_prefix ++ ".fail".toList)] else [])
    ∧ (∀ o y, startup env ap argc w = .error (o, y) →
        y.trace = [] ∨ ∃ cmd, y.trace
          = (purge_markers env ap.output_prefix ⟨w, []⟩).trace ++ [.exec cmd])
    ∧ ∀ cfg m0, startup env ap argc w = .ok (cfg, m0) →
        (∃ out y3, exec env cfg.sbatch_command (purge_markers env ap.output_prefix ⟨w, []⟩)
            = (.ok 0, out, y3))
        ∧ (∃ n, m0.sys.trace = (purge_markers env ap.output_prefix ⟨w, []⟩).trace
            ++ [.exec cfg.sbatch_command, .sleep n])
        ∧ (∀ m, Reachable env cfg m0 m →
            removals m.sys.trace
              = removals (purge_markers env ap.output_prefix ⟨w, []⟩).trace)
        ∧ ∀ k, Reachable env cfg m0 (final_monitor (monitor_passes env cfg k m0)) := by
  refine ⟨purge_markers_clears env ap.output_prefix ⟨w, []⟩ hself hother,
    purge_markers_trace env ap.output_prefix ⟨w, []⟩ hother, ?_, ?_⟩
  · intro o y h
    rw [startup_eq] at h
    by_cases hh : (ap.help || decide (argc = 1)) = true
    · simp only [hh, if_true, Except.error.injEq, Prod.mk.injEq] at h
      left
      rw [← h.2]
    · simp only [hh, Bool.false_eq_true, if_false] at h
      cases hj : derive_job_name ap.job_name ap.output_prefix with
      | error e =>
        simp only [hj, Except.error.injEq, Prod.mk.injEq] at h
        left
        rw [← h.2]
      | ok job_name =>
        simp only [hj] at h
        have htr := exec_trace env (startup_settings ap job_name).sbatch_command
          (purge_markers env ap.output_prefix ⟨w, []⟩)
        rcases he : exec env (startup_settings ap job_name).sbatch_command
          (purge_markers env ap.output_prefix ⟨w, []⟩) with ⟨_ | status, out, y3⟩
        · rw [he] at htr
          simp only [he, Except.error.injEq, Prod.mk.injEq] at h
          right
          exact ⟨_, by rw [← h.2]; exact htr⟩
        · rw [he] at htr
          simp only [he] at h
          by_cases hst : status = 0
          · subst hst
            simp only [ne_eq, not_true_eq_false, if_false] at h
            cases hid : get_job_id out with
            | error e =>
              simp only [hid, Except.error.injEq, Prod.mk.injEq] at h
              right
              exact ⟨_, by rw [← h.2]; exact htr⟩
            | ok job_id => simp [hid] at h
          · simp only [ne_eq, hst, not_false_eq_true, if_true, Except.error.injEq,
              Prod.mk.injEq] at h
            right
            exact ⟨_, by rw [← h.2]; exact htr⟩
  · intro cfg m0 h
    obtain ⟨job_name, out, y3, job_id, -, hcfg, he, -, hm0⟩ := startup_ok env ap argc w cfg m0 h
    have htr := exec_trace env cfg.sbatch_command (purge_markers env ap.output_prefix ⟨w, []⟩)
    rw [he] at htr
    simp only at htr
    have hm0tr : m0.sys.trace = (purge_markers env ap.output_prefix ⟨w, []⟩).trace
        ++ [.exec cfg.sbatch_command, .sleep (1 + (env.uid y3.world).1 % 30)] := by
      rw [hm0]
      simp [do_sleep, htr]
    refine ⟨⟨out, y3, he⟩, ⟨_, hm0tr⟩, ?_,
      fun k => reachable_monitor_passes env cfg m0 k m0 Reachable.start⟩
    intro m hm
    rw [reachable_removals env cfg m0 m hm, hm0tr]
    simp [removals, List.filter_append, Event.is_remove]


theorem files_env_remove_self (p : Str) (w : List Str × List (Int × Str)) :
    files_env.file_exists p (files_env.remove p w) = false := by
  simp [files_env]

theorem files_env_remove_other (p q : Str) (w : List Str × List (Int × Str)) (h : p ≠ q) :
    files_env.file_exists q (files_env.remove p w) = files_env.file_exists q w := by
  have hq : ¬ q = p := fun hqp => h hqp.symm
  simp only [files_env]
  rw [Bool.eq_iff_iff]
  simp [List.mem_filter, hq]

/-- Both markers exist when the program starts: after the purge neither does. -/
theorem C15_markers_purged_before_submission_witness :
    files_env.file_exists ( demo_cargs.output_prefix ++ ".success".toList)
        (["out/job.success".toList, "out/job.fail".toList], [(0, "42\n".toList)]) = true
    ∧ files_env.file_exists ( demo_cargs.output_prefix ++ ".fail".toList)
        (["out/job.success".toList, "out/job.fail".toList], [(0, "42\n".toList)]) = true
    ∧ files_env.file_exists ( demo_cargs.output_prefix ++ ".success".toList)
        (purge_markers files_env demo_cargs.output_prefix
          ⟨(["out/job.success".toList, "out/job.fail".toList], [(0, "42\n".toList)]), []⟩).world
        = false
    ∧ files_env.file_exists ( demo_cargs.output_prefix ++ ".fail".toList)
        (purge_markers files_env demo_cargs.output_prefix
          ⟨(["out/job.success".toList, "out/job.fail".toList], [(0, "42\n".toList)]), []⟩).world
        = false :=
  ⟨by decide, by decide,
    (C15_markers_purged_before_submission files_env demo_cargs 3
      (["out/job.success".toList, "out/job.fail".toList], [(0, "42\n".toList)])
      files_env_remove_self files_env_remove_other).1⟩


/-! ## Lines that are rejected -/

theorem extract_string_of_fail (strm : istringstream) (h : strm.fail = true) :
    (extract_string strm).1.fail = true := by
  simp [extract_string, h]

theorem extract_unsigned_of_fail (strm : istringstream) (h : strm.fail = true) :
    (extract_unsigned strm).1.fail = true := by
  simp [extract_unsigned, h]

/-- Reading a string from a stream that holds nothing but whitespace fails. -/
theorem extract_string_blank (g : Str) (hg : ∀ c ∈ g, isspace c = true) :
    (extract_string ⟨g, false⟩).1.fail = true := by
  have hdrop : g.dropWhile isspace = [] := List.dropWhile_eq_nil_iff.mpr hg
  simp [extract_string, hdrop]

/-- Reading an `unsigned` from a stream that does not begin with a number fails. -/
theorem extract_unsigned_no_number (out : Str) (h : begins_with_number out = false) :
    (extract_unsigned ⟨out, false⟩).1.fail = true := by
  unfold begins_with_number at h
  unfold extract_unsigned
  rcases hrest : out.dropWhile isspace with _ | ⟨c, t⟩
  · simp
  · rw [hrest] at h
    dsimp only at h
    by_cases hsign : c = '+' ∨ c = '-'
    · have hs : (c = '+' || c = '-') = true := by simpa using hsign
      rw [hs] at h
      rcases t with _ | ⟨d, t⟩
      · rcases hsign with rfl | rfl <;> simp
      · simp only [if_true] at h
        rcases hsign with rfl | rfl <;> simp [List.takeWhile_cons, h]
    · have hs : (c = '+' || c = '-') = false := by simpa using hsign
      rw [hs] at h
      simp only [Bool.false_eq_true, if_false] at h
      push_neg at hsign
      simp [List.takeWhile_cons, h, hsign.1, hsign.2]


/-- Reading an `unsigned` from a stream that holds whitespace and then a run of digits that
denotes more than `UINT_MAX` fails. -/
theorem extract_unsigned_large (g d rest : Str) (hg : ∀ c ∈ g, isspace c = true)
    (hne : d ≠ []) (hdig : ∀ c ∈ d, isdigit c = true) (hval : UINT_SIZE ≤ decimal_value d)
    (hrest : ∀ c, rest.head? = some c → isdigit c = false) :
    (extract_unsigned ⟨g ++ (d ++ rest), false⟩).1.fail = true := by
  cases d with
  | nil => exact absurd rfl hne
  | cons c t =>
    have hc := hdig c (List.mem_cons_self _ _)
    have hdrop : (g ++ (c :: t ++ rest)).dropWhile isspace = c :: (t ++ rest) := by
      rw [List.dropWhile_append_of_pos hg]
      simp [List.dropWhile_cons, isspace_of_isdigit c hc]
    have hstop := takeWhile_dropWhile_stop (p := isdigit) (c :: t) rest hdig hrest
    have hminus : c ≠ '-' := by
      rintro rfl
      exact absurd hc (by decide)
    have hplus : c ≠ '+' := by
      rintro rfl
      exact absurd hc (by decide)
    simp only [List.cons_append] at hstop
    simp only [extract_unsigned, hdrop]
    simp [hminus, hplus, hstop.1, hstop.2, hval]

/-- The five extractions fail as soon as one of them does. -/
theorem parse_sjobs_line_none (line : Str)
    (h : (extract_string ⟨line, false⟩).1.fail = true
      ∨ (extract_unsigned (extract_string ⟨line, false⟩).1).1.fail = true
      ∨ (extract_string (extract_unsigned (extract_string ⟨line, false⟩).1).1).1.fail = true
      ∨ (extract_string (extract_string (extract_unsigned
          (extract_string ⟨line, false⟩).1).1).1).1.fail = true
      ∨ (extract_string (extract_string (extract_string (extract_unsigned
          (extract_string ⟨line, false⟩).1).1).1).1).1.fail = true) :
    parse_sjobs_line line = none := by
  have h5 : (extract_string (extract_string (extract_string (extract_unsigned
      (extract_string ⟨line, false⟩).1).1).1).1).1.fail = true := by
    rcases h with h | h | h | h | h
    · exact extract_string_of_fail _ (extract_string_of_fail _ (extract_string_of_fail _
        (extract_unsigned_of_fail _ h)))
    · exact extract_string_of_fail _ (extract_string_of_fail _ (extract_string_of_fail _ h))
    · exact extract_string_of_fail _ (extract_string_of_fail _ h)
    · exact extract_string_of_fail _ h
    · exact h
  simp only [parse_sjobs_line, h5, if_true]


/-- The five extractions fail on every line of one of the shapes of `Malformed`. -/
theorem parse_sjobs_line_malformed (line : Str) (h : Malformed line) :
    parse_sjobs_line line = none := by
  apply parse_sjobs_line_none
  cases h with
  | blank _ _ hg => exact Or.inl (extract_string_blank _ hg)
  | no_number lead f1 rest hl hf hrest hnum =>
    right; left
    rw [extract_string_field lead f1 rest (is_blank_spaces _ hl) hf hrest]
    exact extract_unsigned_no_number rest hnum
  | large_number lead f1 gap1 d rest hl hf hg hne hdig hval hrest =>
    right; left
    rw [extract_string_field lead f1 (gap1 ++ (d ++ rest)) (is_blank_spaces _ hl) hf
      (is_gap_head _ _ hg)]
    exact extract_unsigned_large gap1 d rest (is_blank_spaces _ (is_gap_blank _ hg)) hne hdig
      hval hrest
  | two_fields r hwf =>
    simp only [DataLine.wf, Bool.and_eq_true] at hwf
    obtain ⟨⟨⟨⟨⟨⟨⟨⟨⟨⟨h0, h1⟩, g1⟩, h2⟩, g2⟩, h3⟩, g3⟩, h4⟩, g4⟩, h5⟩, h6⟩ := hwf
    right; right; left
    rw [extract_string_field r.lead r.f1 (r.gap1 ++ (r.jobid ++ r.trail))
        (is_blank_spaces _ h0) h1 (is_gap_head _ _ g1),
      extract_unsigned_job_number r.gap1 r.jobid r.trail
        (is_blank_spaces _ (is_gap_blank _ g1)) h2
        (fun c hc => not_isdigit_of_isspace c (is_blank_head _ h6 c hc))]
    exact extract_string_blank r.trail (is_blank_spaces _ h6)
  | three_fields r hwf =>
    simp only [DataLine.wf, Bool.and_eq_true] at hwf
    obtain ⟨⟨⟨⟨⟨⟨⟨⟨⟨⟨h0, h1⟩, g1⟩, h2⟩, g2⟩, h3⟩, g3⟩, h4⟩, g4⟩, h5⟩, h6⟩ := hwf
    right; right; right; left
    rw [extract_string_field r.lead r.f1 (r.gap1 ++ (r.jobid ++ (r.gap2 ++ (r.f3 ++ r.trail))))
        (is_blank_spaces _ h0) h1 (is_gap_head _ _ g1),
      extract_unsigned_job_number r.gap1 r.jobid (r.gap2 ++ (r.f3 ++ r.trail))
        (is_blank_spaces _ (is_gap_blank _ g1)) h2
        (fun c hc => not_isdigit_of_isspace c (is_gap_head _ _ g2 c hc)),
      extract_string_field r.gap2 r.f3 r.trail (is_blank_spaces _ (is_gap_blank _ g2)) h3
        (is_blank_head _ h6)]
    exact extract_string_blank r.trail (is_blank_spaces _ h6)
  | four_fields r hwf =>
    simp only [DataLine.wf, Bool.and_eq_true] at hwf
    obtain ⟨⟨⟨⟨⟨⟨⟨⟨⟨⟨h0, h1⟩, g1⟩, h2⟩, g2⟩, h3⟩, g3⟩, h4⟩, g4⟩, h5⟩, h6⟩ := hwf
    right; right; right; right
    rw [extract_string_field r.lead r.f1
        (r.gap1 ++ (r.jobid ++ (r.gap2 ++ (r.f3 ++ (r.gap3 ++ (r.f4 ++ r.trail))))))
        (is_blank_spaces _ h0) h1 (is_gap_head _ _ g1),
      extract_unsigned_job_number r.gap1 r.jobid
        (r.gap2 ++ (r.f3 ++ (r.gap3 ++ (r.f4 ++ r.trail))))
        (is_blank_spaces _ (is_gap_blank _ g1)) h2
        (fun c hc => not_isdigit_of_isspace c (is_gap_head _ _ g2 c hc)),
      extract_string_field r.gap2 r.f3 (r.gap3 ++ (r.f4 ++ r.trail))
        (is_blank_spaces _ (is_gap_blank _ g2)) h3 (is_gap_head _ _ g3),
      extract_string_field r.gap3 r.f4 r.trail (is_blank_spaces _ (is_gap_blank _ g3)) h4
        (is_blank_head _ h6)]
    exact extract_string_blank r.trail (is_blank_spaces _ h6)

/-- The second loop of `get_job_ids` throws at the first line that is not empty and on which
the five extractions fail, with the text of that line in the message, whatever comes
after. -/
theorem get_job_ids_loop_rejects (rows : List (Option DataLine)) (bad : Str) (post : List Str)
    (hne : bad ≠ []) (hbad : parse_sjobs_line bad = none) :
    ∀ target : JobMap, (∀ r, some r ∈ rows → r.wf = true) →
      get_job_ids_loop (rows.map line_text ++ bad :: post) target
        = .error (.domain_error ("cannot parse sjobs line \"".toList ++ bad ++ "\"".toList)) := by
  induction rows with
  | nil =>
    intro target _
    have hemp : bad.isEmpty = false := by
      cases bad with
      | nil => exact absurd rfl hne
      | cons c t => rfl
    simp only [List.map_nil, List.nil_append, get_job_ids_loop, hemp, hbad, Bool.false_eq_true,
      if_false]
  | cons o rows ih =>
    intro target h
    have hrest : ∀ r, some r ∈ rows → r.wf = true := fun r hr => h r (List.mem_cons_of_mem _ hr)
    cases o with
    | none =>
      simp only [List.map_cons, List.cons_append, line_text, get_job_ids_loop,
        List.isEmpty_nil, if_true]
      exact ih target hrest
    | some r =>
      have hwf := h r (List.mem_cons_self _ _)
      simp only [List.map_cons, List.cons_append, line_text, get_job_ids_loop,
        text_ne_nil_of_wf r hwf, parse_sjobs_line_wf r hwf, Bool.false_eq_true, if_false]
      exact ih _ hrest


theorem malformed_ne_nil (line : Str) (h : Malformed line) : line ≠ [] := by
  cases h with
  | blank _ hne _ => exact hne
  | no_number lead f1 rest _ hf _ _ =>
    have := is_field_ne_nil f1 hf
    simp [this]
  | large_number lead f1 gap1 d rest _ hf _ _ _ _ _ =>
    have := is_field_ne_nil f1 hf
    simp [this]
  | two_fields r hwf =>
    simp only [DataLine.wf, Bool.and_eq_true] at hwf
    have := is_field_ne_nil r.f1 hwf.1.1.1.1.1.1.1.1.1.2
    simp [this]
  | three_fields r hwf =>
    simp only [DataLine.wf, Bool.and_eq_true] at hwf
    have := is_field_ne_nil r.f1 hwf.1.1.1.1.1.1.1.1.1.2
    simp [this]
  | four_fields r hwf =>
    simp only [DataLine.wf, Bool.and_eq_true] at hwf
    have := is_field_ne_nil r.f1 hwf.1.1.1.1.1.1.1.1.1.2
    simp [this]

/-- C14, counterexample: a data line of six fields, and a data line whose second field `42abc`
is not an integer, are both taken by `get_job_ids` as lines of job 42; no error is
thrown. (In the second the status is read from the fourth field.) -/
theorem C14_long_and_mixed_lines_accepted :
    (get_job_ids "h\nu 42 n p R extra".toList).map (fun res => res.map (fun m => m.find 42))
      = some (.ok (some true))
    ∧ (get_job_ids "h\nu 42abc n p E".toList).map (fun res => res.map (fun m => m.find 42))
      = some (.ok (some true)) := by
  decide

/-- C14, amended: take a listing whose lines after the first are, up to some line, empty or
well-formed data lines, and whose next line `bad` is of one of the shapes of `Malformed`:
whitespace only; a first field followed by text that does not begin with a number; a second
field that starts with a run of digits denoting more than `UINT_MAX`; or two, three or four
fields with a job number as the second. Then, whatever lines follow, `get_job_ids` throws
the domain error `cannot parse sjobs line`, and its message contains the text of `bad`. -/
theorem C14_first_malformed_line_named (header : Str) (rows : List (Option DataLine))
    (bad : Str) (post : List Str) (hwf : listing_wf header rows = true) (hbad : Malformed bad)
    (hnl : '\n' ∉ bad) (hpost : ∀ l ∈ post, '\n' ∉ l) :
    get_job_ids (join_lines header (rows.map line_text ++ bad :: post))
      = some (.error (.domain_error
          ("cannot parse sjobs line \"".toList ++ bad ++ "\"".toList)))
    ∧ bad <:+: "cannot parse sjobs line \"".toList ++ bad ++ "\"".toList := by
  have hrows := listing_wf_rows header rows hwf
  have hlines : ∀ x ∈ rows.map line_text ++ bad :: post, '\n' ∉ x := by
    intro x hx
    rcases List.mem_append.mp hx with h | h
    · exact line_text_no_newline rows hrows x h
    · rcases List.mem_cons.mp h with rfl | h
      · exact hnl
      · exact hpost x h
  refine ⟨?_, ⟨"cannot parse sjobs line \"".toList, "\"".toList, rfl⟩⟩
  simp only [get_job_ids, splitline_join_lines header _ (listing_wf_header header rows hwf)
    hlines, get_job_ids_loop_rejects rows bad post (malformed_ne_nil bad hbad)
    (parse_sjobs_line_malformed bad hbad) JobMap.empty hrows]

/-- A listing with a well-formed line for job 42, then the line `garbage`, then a line for job
43. -/
theorem C14_first_malformed_line_named_witness :
    get_job_ids (join_lines "h".toList
        ([some (plain_line "u".toList "42".toList "n".toList "p".toList "R".toList)].map line_text
          ++ "garbage".toList :: ["u 43 n p E".toList]))
      = some (.error (.domain_error
          ("cannot parse sjobs line \"".toList ++ "garbage".toList ++ "\"".toList))) :=
  (C14_first_malformed_line_named "h".toList
    [some (plain_line "u".toList "42".toList "n".toList "p".toList "R".toList)]
    "garbage".toList ["u 43 n p E".toList] (by decide)
    (Malformed.no_number [] "garbage".toList [] (by decide) (by decide) (by simp) (by decide))
    (by decide) (by decide)).1


/-! ## The marker checks in place -/

theorem classify_markers_eq_zero (s f : Bool) : classify_markers s f = some 0 ↔ s = true := by
  cases s <;> cases f <;> simp [classify_markers]

theorem classify_markers_eq_two (s f : Bool) :
    classify_markers s f = some 2 ↔ s = false ∧ f = true := by
  cases s <;> cases f <;> simp [classify_markers]

theorem classify_markers_eq_none (s f : Bool) :
    classify_markers s f = none ↔ s = false ∧ f = false := by
  cases s <;> cases f <;> simp [classify_markers]

/-- The head of the monitoring loop (lines 86-95) when the success marker exists. -/
theorem monitor_body_success {W : Type} (env : Env W) (cfg : Settings) (m : Monitor W)
    (hs : env.file_exists ( cfg.logging_prefix ++ ".success".toList) m.sys.world = true) :
    monitor_body env cfg m
      = .error (.exit 0,
          { m with sys := ⟨m.sys.world, m.sys.trace
              ++ [.file_exists ( cfg.logging_prefix ++ ".success".toList)]⟩ }) := by
  simp only [monitor_body, marker_check_poll, fs_exists, hs]

/-- The head of the monitoring loop when only the fail marker exists. -/
theorem monitor_body_fail {W : Type} (env : Env W) (cfg : Settings) (m : Monitor W)
    (hs : env.file_exists ( cfg.logging_prefix ++ ".success".toList) m.sys.world = false)
    (hf : env.file_exists ( cfg.logging_prefix ++ ".fail".toList) m.sys.world = true) :
    monitor_body env cfg m
      = .error (.exit 2,
          { m with sys := ⟨m.sys.world, m.sys.trace
              ++ [.file_exists ( cfg.logging_prefix ++ ".success".toList),
                  .file_exists ( cfg.logging_prefix ++ ".fail".toList)]⟩ }) := by
  simp only [monitor_body, marker_check_poll, fs_exists, hs, hf, List.append_assoc,
    List.singleton_append]

/-- The head of the monitoring loop when neither marker exists: the pass goes on with its
sleep. -/
theorem monitor_body_none {W : Type} (env : Env W) (cfg : Settings) (m : Monitor W)
    (hs : env.file_exists ( cfg.logging_prefix ++ ".success".toList) m.sys.world = false)
    (hf : env.file_exists ( cfg.logging_prefix ++ ".fail".toList) m.sys.world = false) :
    monitor_body env cfg m
      = if (m.seconds_elapsed_since_crashcheck + cfg.sleep_in_seconds) % UINT_SIZE
            ≥ cfg.crashcheck_interval_in_seconds then
          crashcheck env cfg
            { m with sys := ⟨env.sleep cfg.sleep_in_seconds m.sys.world, m.sys.trace
                  ++ [.file_exists ( cfg.logging_prefix ++ ".success".toList),
                      .file_exists ( cfg.logging_prefix ++ ".fail".toList),
                      .sleep cfg.sleep_in_seconds]⟩,
                     seconds_elapsed_since_crashcheck :=
                       (m.seconds_elapsed_since_crashcheck + cfg.sleep_in_seconds) % UINT_SIZE }
        else
          .ok
            { m with sys := ⟨env.sleep cfg.sleep_in_seconds m.sys.world, m.sys.trace
                  ++ [.file_exists ( cfg.logging_prefix ++ ".success".toList),
                      .file_exists ( cfg.logging_prefix ++ ".fail".toList),
                      .sleep cfg.sleep_in_seconds]⟩,
                     seconds_elapsed_since_crashcheck :=
                       (m.seconds_elapsed_since_crashcheck + cfg.sleep_in_seconds)
                         % UINT_SIZE } := by
  simp only [monitor_body, marker_check_poll, fs_exists, hs, hf, do_sleep, List.append_assoc,
    List.singleton_append, List.cons_append, List.nil_append]

/-- A pass of the crash check that finds the job missing from the listing, as far as the
marker check of lines 145-152. -/
theorem crashcheck_body_missing {W : Type} (env : Env W) (cfg : Settings) (m : Monitor W)
    (log : Str) (w1 : W) (ids : JobMap)
    (hlist : env.popen "sjobs".toList m.sys.world = (some (0, log), w1))
    (hparse : get_job_ids log = some (.ok ids))
    (hfind : ids.find m.job_id = none) :
    crashcheck_body env cfg m
      = match marker_check_missing env cfg ⟨w1, m.sys.trace ++ [.exec "sjobs".toList]⟩ with
        | (some code, y1) => .stop (.exit code) { m with sys := y1 }
        | (none, y1) =>
          match marker_check_waited env cfg (do_sleep env 120 y1) with
          | (some code, y2) => .stop (.exit code) { m with sys := y2 }
          | (none, y2) => resubmit_crashed env cfg { m with sys := y2 } := by
  simp only [crashcheck_body, exec_ok env _ _ _ _ _ hlist, hparse, hfind]
  rfl


/-- C10: the three marker checks of the monitor, in place. `classify_markers` maps the two
marker bits to exit code 0 when the success marker exists (whether or not the fail marker
does), else to exit code 2 when the fail marker exists, else to nothing. (1) At the head of
a pass of the monitoring loop, in the world `m` is in: classification 0 makes `main` return
0 after the look at the success marker, classification 2 makes it return 2 after the look
at both, and with no classification the pass goes on with its sleep. (2) In a pass of the
crash check that finds the job missing from the listing, in the world `w1` left by the
listing: classification 0 makes `main` return 0, classification 2 makes it return 2. (3)
With no classification there the pass sleeps 120 seconds and checks again in the world
after the sleep: classification 0 makes `main` return 0, classification 2 makes it return
2, and with no classification the job is submitted again. So each check is the same
function of the two marker bits of the world it is made in, and no check changes the
world. -/
theorem C10_marker_checks_agree {W : Type} (env : Env W) (cfg : Settings) (m mc : Monitor W)
    (log : Str) (w1 : W) (ids : JobMap)
    (hlist : env.popen "sjobs".toList mc.sys.world = (some (0, log), w1))
    (hparse : get_job_ids log = some (.ok ids))
    (hfind : ids.find mc.job_id = none) :
    ((∀ f, classify_markers true f = some 0) ∧ classify_markers false true = some 2
      ∧ classify_markers false false = none)
    ∧ ((classify_markers (env.file_exists ( cfg.logging_prefix ++ ".success".toList) m.sys.world)
          (env.file_exists ( cfg.logging_prefix ++ ".fail".toList) m.sys.world) = some 0 →
        monitor_body env cfg m
          = .error (.exit 0,
              { m with sys := ⟨m.sys.world, m.sys.trace ++ [.file_exists ( cfg.logging_prefix ++ ".success".toList)]⟩ }))
      ∧ (classify_markers (env.file_exists ( cfg.logging_prefix ++ ".success".toList) m.sys.world)
          (env.file_exists ( cfg.logging_prefix ++ ".fail".toList) m.sys.world) = some 2 →
        monitor_body env cfg m
          = .error (.exit 2,
              { m with sys := ⟨m.sys.world, m.sys.trace ++ [.file_exists ( cfg.logging_prefix ++ ".success".toList),
                  .file_exists ( cfg.logging_prefix ++ ".fail".toList)]⟩ }))
      ∧ (classify_markers (env.file_exists ( cfg.logging_prefix ++ ".success".toList) m.sys.world)
          (env.file_exists ( cfg.logging_prefix ++ ".fail".toList) m.sys.world) = none →
        monitor_body env cfg m
          = if (m.seconds_elapsed_since_crashcheck + cfg.sleep_in_seconds) % UINT_SIZE
                ≥ cfg.crashcheck_interval_in_seconds then
              crashcheck env cfg
                { m with sys := ⟨env.sleep cfg.sleep_in_seconds m.sys.world, m.sys.trace
                      ++ [.file_exists ( cfg.logging_prefix ++ ".success".toList), .file_exists ( cfg.logging_prefix ++ ".fail".toList), .sleep cfg.sleep_in_seconds]⟩,
                         seconds_elapsed_since_crashcheck :=
                           (m.seconds_elapsed_since_crashcheck + cfg.sleep_in_seconds)
                             % UINT_SIZE }
            else
              .ok
                { m with sys := ⟨env.sleep cfg.sleep_in_seconds m.sys.world, m.sys.trace
                      ++ [.file_exists ( cfg.logging_prefix ++ ".success".toList), .file_exists ( cfg.logging_prefix ++ ".fail".toList), .sleep cfg.sleep_in_seconds]⟩,
                         seconds_elapsed_since_crashcheck :=
                           (m.seconds_elapsed_since_crashcheck + cfg.sleep_in_seconds)
                             % UINT_SIZE }))
    ∧ ((classify_markers (env.file_exists ( cfg.logging_prefix ++ ".success".toList) w1)
          (env.file_exists ( cfg.logging_prefix ++ ".fail".toList) w1) = some 0 →
        crashcheck_body env cfg mc
          = .stop (.exit 0)
              { mc with sys := ⟨w1, mc.sys.trace ++ [.exec "sjobs".toList, .file_exists ( cfg.logging_prefix ++ ".success".toList)]⟩ })
      ∧ (classify_markers (env.file_exists ( cfg.logging_prefix ++ ".success".toList) w1)
          (env.file_exists ( cfg.logging_prefix ++ ".fail".toList) w1) = some 2 →
        crashcheck_body env cfg mc
          = .stop (.exit 2)
              { mc with sys := ⟨w1, mc.sys.trace ++ [.exec "sjobs".toList, .file_exists ( cfg.logging_prefix ++ ".success".toList),
                  .file_exists ( cfg.logging_prefix ++ ".fail".toList)]⟩ }))
    ∧ (classify_markers (env.file_exists ( cfg.logging_prefix ++ ".success".toList) w1)
          (env.file_exists ( cfg.logging_prefix ++ ".fail".toList) w1) = none →
        (classify_markers (env.file_exists ( cfg.logging_prefix ++ ".success".toList) (env.sleep 120 w1))
          (env.file_exists ( cfg.logging_prefix ++ ".fail".toList) (env.sleep 120 w1)) = some 0 →
          crashcheck_body env cfg mc
            = .stop (.exit 0)
                { mc with sys := ⟨env.sleep 120 w1, mc.sys.trace ++ [.exec "sjobs".toList,
                    .file_exists ( cfg.logging_prefix ++ ".success".toList), .file_exists ( cfg.logging_prefix ++ ".fail".toList), .sleep 120, .file_exists ( cfg.logging_prefix ++ ".success".toList)]⟩ })
        ∧ (classify_markers (env.file_exists ( cfg.logging_prefix ++ ".success".toList) (env.sleep 120 w1))
          (env.file_exists ( cfg.logging_prefix ++ ".fail".toList) (env.sleep 120 w1)) = some 2 →
          crashcheck_body env cfg mc
            = .stop (.exit 2)
                { mc with sys := ⟨env.sleep 120 w1, mc.sys.trace ++ [.exec "sjobs".toList,
                    .file_exists ( cfg.logging_prefix ++ ".success".toList), .file_exists ( cfg.logging_prefix ++ ".fail".toList), .sleep 120, .file_exists ( cfg.logging_prefix ++ ".success".toList),
                    .file_exists ( cfg.logging_prefix ++ ".fail".toList)]⟩ })
        ∧ (classify_markers (env.file_exists ( cfg.logging_prefix ++ ".success".toList) (env.sleep 120 w1))
          (env.file_exists ( cfg.logging_prefix ++ ".fail".toList) (env.sleep 120 w1)) = none →
          crashcheck_body env cfg mc
            = resubmit_crashed env cfg
                { mc with sys := ⟨env.sleep 120 w1, mc.sys.trace ++ [.exec "sjobs".toList,
                    .file_exists ( cfg.logging_prefix ++ ".success".toList), .file_exists ( cfg.logging_prefix ++ ".fail".toList), .sleep 120, .file_exists ( cfg.logging_prefix ++ ".success".toList),
                    .file_exists ( cfg.logging_prefix ++ ".fail".toList)]⟩ })) := by
  have hbody := crashcheck_body_missing env cfg mc log w1 ids hlist hparse hfind
  refine ⟨⟨fun f => rfl, rfl, rfl⟩, ⟨?_, ?_, ?_⟩, ⟨?_, ?_⟩, ?_⟩
  · intro hc
    exact monitor_body_success env cfg m ((classify_markers_eq_zero _ _).mp hc)
  · intro hc
    obtain ⟨hs, hf⟩ := (classify_markers_eq_two _ _).mp hc
    exact monitor_body_fail env cfg m hs hf
  · intro hc
    obtain ⟨hs, hf⟩ := (classify_markers_eq_none _ _).mp hc
    exact monitor_body_none env cfg m hs hf
  · intro hc
    have hs := (classify_markers_eq_zero _ _).mp hc
    rw [hbody]
    simp only [marker_check_missing, fs_exists, hs, List.append_assoc, List.singleton_append]
  · intro hc
    obtain ⟨hs, hf⟩ := (classify_markers_eq_two _ _).mp hc
    rw [hbody]
    simp only [marker_check_missing, fs_exists, hs, hf, List.append_assoc,
      List.singleton_append, List.cons_append, List.nil_append]
  · intro hc1
    obtain ⟨hs1, hf1⟩ := (classify_markers_eq_none _ _).mp hc1
    refine ⟨?_, ?_, ?_⟩
    · intro hc
      have hs := (classify_markers_eq_zero _ _).mp hc
      rw [hbody]
      simp only [marker_check_missing, marker_check_waited, fs_exists, do_sleep, hs1, hf1, hs,
        List.append_assoc, List.singleton_append, List.cons_append, List.nil_append]
    · intro hc
      obtain ⟨hs, hf⟩ := (classify_markers_eq_two _ _).mp hc
      rw [hbody]
      simp only [marker_check_missing, marker_check_waited, fs_exists, do_sleep, hs1, hf1, hs,
        hf, List.append_assoc, List.singleton_append, List.cons_append, List.nil_append]
    · intro hc
      obtain ⟨hs, hf⟩ := (classify_markers_eq_none _ _).mp hc
      rw [hbody]
      simp only [marker_check_missing, marker_check_waited, fs_exists, do_sleep, hs1, hf1, hs,
        hf, List.append_assoc, List.singleton_append, List.cons_append, List.nil_append]


/-- With both markers there the head of the monitoring loop makes `main` return 0; with only
the fail marker there, a crash check that finds job 42 missing makes `main` return 2. -/
theorem C10_marker_checks_agree_witness :
    monitor_body files_env demo_settings
        (files_monitor ["out/job.success".toList, "out/job.fail".toList] [])
      = .error (.exit 0,
          { files_monitor ["out/job.success".toList, "out/job.fail".toList] [] with
            sys := ⟨(["out/job.success".toList, "out/job.fail".toList], []),
              [] ++ [.file_exists ( demo_settings.logging_prefix ++ ".success".toList)]⟩ })
    ∧ crashcheck_body files_env demo_settings
        (files_monitor ["out/job.fail".toList] [(0, "h\n".toList)])
      = .stop (.exit 2)
          { files_monitor ["out/job.fail".toList] [(0, "h\n".toList)] with
            sys := ⟨(["out/job.fail".toList], []),
              [] ++ [.exec "sjobs".toList,
                .file_exists ( demo_settings.logging_prefix ++ ".success".toList),
                .file_exists ( demo_settings.logging_prefix ++ ".fail".toList)]⟩ } :=
  ⟨(C10_marker_checks_agree files_env demo_settings
      (files_monitor ["out/job.success".toList, "out/job.fail".toList] [])
      (files_monitor ["out/job.fail".toList] [(0, "h\n".toList)])
      "h\n".toList (["out/job.fail".toList], []) JobMap.empty
      (by rfl) (by rfl) (by rfl)).2.1.1 (by decide),
    (C10_marker_checks_agree files_env demo_settings
      (files_monitor ["out/job.success".toList, "out/job.fail".toList] [])
      (files_monitor ["out/job.fail".toList] [(0, "h\n".toList)])
      "h\n".toList (["out/job.fail".toList], []) JobMap.empty
      (by rfl) (by rfl) (by rfl)).2.2.1.2 (by decide)⟩


end sbatch_job_monitor
